import Mathlib

/-!
# Accountability backend: group goal engine, tokens, passwords, configuration

Shallow embedding of `backend/internal/models/group.go`,
`backend/internal/models/subscription.go`, `backend/internal/auth/jwt.go`,
`backend/internal/auth/password.go` and `backend/internal/config/config.go`.
The leaderboard ranking and the period-transition sweep, which the source only
declares or calls, are modelled from the specification and marked as such.

Conventions of the embedding:
* `float64` amounts are exact rationals (`ℚ`); NaN, infinities and rounding are
  outside the model, except in the definitions named `...F64`, which round every
  sum and difference to the nearest float64 value as the code does.
* `uuid.UUID` values are natural numbers; `uuid.New()` is an explicit input.
* `time.Time` values are integer instants on the UTC time line (nanoseconds);
  `time.Now().UTC()` is an explicit input, `a.After(b)` is `b < a`.
* Go maps are association lists without duplicate keys (`AList`).
* Go strings are Lean strings, `len` counts the bytes of their UTF-8 encoding;
  `int` is 64 bits wide.
* External libraries (JWT, bcrypt, `unicode`) and the random source are
  parameters.
-/

namespace Accountability

/-! ## Data model (models/group.go) -/

/-- Value of `uuid.UUID`. -/
abbrev UUID := Nat

/-- Instant of `time.Time`, as a point of the UTC time line. -/
abbrev Time := Int

/-- Go method `t.After(u)`: `t` is strictly later than `u`. -/
def Time.After (t u : Time) : Bool := decide (u < t)

/-- Struct `GroupGoalPeriod` of group.go, lines 70-77. -/
structure GroupGoalPeriod where
  ID : UUID
  GroupGoalID : UUID
  StartDate : Time
  EndDate : Time
  IsActive : Bool
  CreatedAt : Time
  deriving DecidableEq

/-- Struct `GroupGoalProgress` of group.go, lines 80-91. -/
structure GroupGoalProgress where
  ID : UUID
  GroupGoalPeriodID : UUID
  UserID : UUID
  TargetAmount : ℚ
  CurrentAmount : ℚ
  PenaltyCarryOver : ℚ
  DailyEntries : String
  IsCompleted : Bool
  CreatedAt : Time
  UpdatedAt : Time
  deriving DecidableEq

/-- Constructor `NewGroupGoalPeriod` (group.go 245-254). The fresh id and the
clock reading are inputs. -/
def NewGroupGoalPeriod (newID : UUID) (now : Time)
    (groupGoalID : UUID) (startDate endDate : Time) : GroupGoalPeriod :=
  { ID := newID
    GroupGoalID := groupGoalID
    StartDate := startDate
    EndDate := endDate
    IsActive := true
    CreatedAt := now }

/-- Constructor `NewGroupGoalProgress` (group.go 256-269). The fresh id and the
two clock readings are inputs. -/
def NewGroupGoalProgress (newID : UUID) (now1 now2 : Time)
    (periodID userID : UUID) (targetAmount penaltyCarryOver : ℚ) : GroupGoalProgress :=
  { ID := newID
    GroupGoalPeriodID := periodID
    UserID := userID
    TargetAmount := targetAmount + penaltyCarryOver
    CurrentAmount := 0
    PenaltyCarryOver := penaltyCarryOver
    DailyEntries := "[]"
    IsCompleted := false
    CreatedAt := now1
    UpdatedAt := now2 }

/-- Method `CalculateProgressPercentage` (group.go 279-288). -/
def GroupGoalProgress.CalculateProgressPercentage (gp : GroupGoalProgress) : ℚ :=
  if gp.TargetAmount ≤ 0 then 0
  else
    let percentage := (gp.CurrentAmount / gp.TargetAmount) * 100
    if percentage > 100 then 100 else percentage

/-- Method `CalculatePenaltyCarryOver` (group.go 291-297). -/
def GroupGoalProgress.CalculatePenaltyCarryOver (gp : GroupGoalProgress) : ℚ :=
  let deficit := gp.TargetAmount - gp.CurrentAmount
  if deficit ≤ 0 then 0 else deficit

/-- A finished row used in the scenarios: target `t`, achieved `c`. -/
def rowWith (t c : ℚ) : GroupGoalProgress :=
  { ID := 1, GroupGoalPeriodID := 2, UserID := 3, TargetAmount := t, CurrentAmount := c,
    PenaltyCarryOver := 0, DailyEntries := "[]", IsCompleted := false,
    CreatedAt := 0, UpdatedAt := 0 }

/-! ## Token blacklist (auth/jwt.go) -/

/-- Struct `TokenBlacklist` (jwt.go 211-213): the map `token_id -> expiry_time`. -/
structure TokenBlacklist where
  tokens : AList (fun _ : String => Time)

/-- Constructor `NewTokenBlacklist` (jwt.go 216-220): the empty map. -/
def NewTokenBlacklist : TokenBlacklist := ⟨∅⟩

/-- Method `Add` (jwt.go 223-225): `tb.tokens[jti] = expiryTime`. -/
def TokenBlacklist.Add (tb : TokenBlacklist) (jti : String) (expiryTime : Time) :
    TokenBlacklist :=
  ⟨tb.tokens.insert jti expiryTime⟩

/-- Method `IsBlacklisted` (jwt.go 228-241), with the clock reading `now` as an
input. Returns the answer and the blacklist after the call (an expired entry is
deleted). -/
def TokenBlacklist.IsBlacklisted (tb : TokenBlacklist) (now : Time) (jti : String) :
    Bool × TokenBlacklist :=
  match tb.tokens.lookup jti with
  | none => (false, tb)
  | some expiryTime =>
    if Time.After now expiryTime then (false, ⟨tb.tokens.erase jti⟩)
    else (true, tb)

/-- One iteration of the loop of `Cleanup`: delete the visited entry when expired. -/
def cleanupStep (now : Time) (m : AList (fun _ : String => Time))
    (entry : Sigma (fun _ : String => Time)) : AList (fun _ : String => Time) :=
  if Time.After now entry.2 then m.erase entry.1 else m

/-- Method `Cleanup` (jwt.go 244-251), with the clock reading `now` as an input:
the loop visits every entry of the map once and deletes the expired ones. -/
def TokenBlacklist.Cleanup (tb : TokenBlacklist) (now : Time) : TokenBlacklist :=
  ⟨tb.tokens.entries.foldl (cleanupStep now) tb.tokens⟩

/-- Method `GetBlacklistedCount` (jwt.go 254-256): `len(tb.tokens)`. -/
def TokenBlacklist.GetBlacklistedCount (tb : TokenBlacklist) : Int :=
  (tb.tokens.entries.length : Int)

/-- The background sequence of main.go 263-264: `Cleanup()` then
`GetBlacklistedCount()`. -/
def cleanupAndCount (tb : TokenBlacklist) (now : Time) : TokenBlacklist × Int :=
  let tb1 := tb.Cleanup now
  (tb1, tb1.GetBlacklistedCount)

/-- Blacklist holding token "a" until instant 100 and token "b" until instant 50. -/
def sampleBlacklist : TokenBlacklist :=
  (NewTokenBlacklist.Add "a" 100).Add "b" 50

/-! ## Token manager (auth/jwt.go) -/

/-- Type `TokenType` (jwt.go 14): a string. -/
abbrev TokenType := String

/-- Constant `AccessToken` (jwt.go 17). -/
def AccessToken : TokenType := "access"

/-- Constant `RefreshToken` (jwt.go 18). -/
def RefreshToken : TokenType := "refresh"

/-- Struct `jwt.RegisteredClaims` of the JWT library, embedded in `Claims`. -/
structure RegisteredClaims where
  Issuer : String
  Subject : String
  Audience : List String
  ExpiresAt : Time
  NotBefore : Time
  IssuedAt : Time
  ID : String
  deriving DecidableEq

/-- Struct `Claims` (jwt.go 22-27). -/
structure Claims extends RegisteredClaims where
  UserID : UUID
  Email : String
  TokenType : TokenType
  deriving DecidableEq

/-- Struct `TokenPair` (jwt.go 30-35). -/
structure TokenPair where
  AccessToken : String
  RefreshToken : String
  ExpiresIn : Int
  TokenType : String
  deriving DecidableEq

/-- Struct `TokenManager` (jwt.go 38-44); byte slices are lists of byte values,
durations are integer nanoseconds. -/
structure TokenManager where
  accessSecret : List Nat
  refreshSecret : List Nat
  accessTTL : Int
  refreshTTL : Int
  issuer : String
  deriving DecidableEq

/-- Result `*jwt.Token` of the library's parser, as far as jwt.go reads it:
`Claims` is the outcome of the type assertion `token.Claims.(*Claims)` and
`Valid` the field `token.Valid`. -/
structure ParsedToken where
  Claims : Option Claims
  Valid : Bool
  deriving DecidableEq

/-- The two operations of the external library `golang-jwt/jwt/v5` that jwt.go
calls; the library is not part of the repository, so it is a parameter.
`sign claims secret` is `jwt.NewWithClaims(jwt.SigningMethodHS256, claims).SignedString(secret)`;
`parse tokenString keyFunc now` is `jwt.ParseWithClaims(tokenString, &Claims{}, keyFunc)`
called at instant `now`, where `keyFunc` receives whether the token's signing
method is an HMAC method. -/
structure JWTLib where
  sign : Claims → List Nat → Except String String
  parse : String → (Bool → Except String (List Nat)) → Time → Except String ParsedToken

/-- Canonical text of a uuid, `userID.String()`. -/
def uuidString (u : UUID) : String := toString u

/-- Library function `hex.EncodeToString`: two lowercase hex digits per byte. -/
def hexEncodeToString (bytes : List Nat) : String :=
  String.mk (bytes.flatMap (fun b => [Nat.digitChar (b / 16), Nat.digitChar (b % 16)]))

/-- Function `generateJTI` (jwt.go 201-207); `rnd` is the outcome of
`rand.Read` on a 16-byte buffer: the bytes read, or an error. -/
def generateJTI (rnd : Except String (List Nat)) : Except String String :=
  match rnd with
  | .error err => .error err
  | .ok bytes => .ok (hexEncodeToString bytes)

/-- Method `generateToken` (jwt.go 80-109); `now` is the clock reading and `rnd`
the outcome of the random source. -/
def TokenManager.generateToken (tm : TokenManager) (lib : JWTLib) (now : Time)
    (rnd : Except String (List Nat)) (userID : UUID) (email : String)
    (tokenType : TokenType) (secret : List Nat) (ttl : Int) : Except String String :=
  match generateJTI rnd with
  | .error err => .error ("failed to generate JTI: " ++ err)
  | .ok jti =>
    let claims : Claims :=
      { UserID := userID
        Email := email
        TokenType := tokenType
        Issuer := tm.issuer
        Subject := uuidString userID
        Audience := ["chainforge"]
        ExpiresAt := now + ttl
        NotBefore := now
        IssuedAt := now
        ID := jti }
    match lib.sign claims secret with
    | .error err => .error ("failed to sign token: " ++ err)
    | .ok tokenString => .ok tokenString

/-- Method `GenerateTokenPair` (jwt.go 58-77); each of the two calls of
`generateToken` has its own clock reading and random outcome. `ExpiresIn`,
`int64(tm.accessTTL.Seconds())`, is taken as the TTL in nanoseconds divided by
10^9 and truncated toward zero (floating-point rounding is outside the model). -/
def TokenManager.GenerateTokenPair (tm : TokenManager) (lib : JWTLib) (nowA nowR : Time)
    (rndA rndR : Except String (List Nat)) (userID : UUID) (email : String) :
    Except String TokenPair :=
  match tm.generateToken lib nowA rndA userID email AccessToken tm.accessSecret tm.accessTTL with
  | .error err => .error ("failed to generate access token: " ++ err)
  | .ok accessToken =>
    match tm.generateToken lib nowR rndR userID email RefreshToken tm.refreshSecret
        tm.refreshTTL with
    | .error err => .error ("failed to generate refresh token: " ++ err)
    | .ok refreshToken =>
      .ok { AccessToken := accessToken
            RefreshToken := refreshToken
            ExpiresIn := Int.tdiv tm.accessTTL 1000000000
            TokenType := "Bearer" }

/-- The key function passed to the parser in `validateToken` (jwt.go 123-129). -/
def keyFunc (secret : List Nat) (methodIsHMAC : Bool) : Except String (List Nat) :=
  if !methodIsHMAC then .error "unexpected signing method" else .ok secret

/-- Method `validateToken` (jwt.go 122-156), called at instant `now`. -/
def TokenManager.validateToken (tm : TokenManager) (lib : JWTLib) (now : Time)
    (tokenString : String) (expectedType : TokenType) (secret : List Nat) :
    Except String Claims :=
  match lib.parse tokenString (keyFunc secret) now with
  | .error err => .error ("failed to parse token: " ++ err)
  | .ok token =>
    match token.Claims with
    | none => .error "invalid token claims"
    | some claims =>
      if !token.Valid then .error "invalid token claims"
      else if claims.TokenType ≠ expectedType then
        .error ("invalid token type: expected " ++ expectedType ++ ", got " ++ claims.TokenType)
      else if claims.Issuer ≠ tm.issuer then
        .error ("invalid issuer: expected " ++ tm.issuer ++ ", got " ++ claims.Issuer)
      else if claims.Audience.length > 0 ∧ claims.Audience.head? ≠ some "chainforge" then
        .error "invalid audience"
      else .ok claims

/-- Method `ValidateAccessToken` (jwt.go 112-114). -/
def TokenManager.ValidateAccessToken (tm : TokenManager) (lib : JWTLib) (now : Time)
    (tokenString : String) : Except String Claims :=
  tm.validateToken lib now tokenString AccessToken tm.accessSecret

/-- Method `ValidateRefreshToken` (jwt.go 117-119). -/
def TokenManager.ValidateRefreshToken (tm : TokenManager) (lib : JWTLib) (now : Time)
    (tokenString : String) : Except String Claims :=
  tm.validateToken lib now tokenString RefreshToken tm.refreshSecret

/-- Assumption on the external library: a token string produced by `sign` for
some claims, when it parses at all, yields claims with the token type that was
signed (the payload of a JWT is part of the token string). -/
def JWTLib.KeepsTokenType (lib : JWTLib) : Prop :=
  ∀ (c : Claims) (secret : List Nat) (tok : String) (kf : Bool → Except String (List Nat))
    (now : Time) (t : ParsedToken) (c2 : Claims),
    lib.sign c secret = .ok tok → lib.parse tok kf now = .ok t → t.Claims = some c2 →
      c2.TokenType = c.TokenType

/-- Claims rebuilt by the stand-in library from a token string. -/
def toyClaims (tok : String) : Claims :=
  { UserID := 1, Email := "a@b.c", TokenType := tok, Issuer := "chainforge-api",
    Subject := "1", Audience := ["chainforge"], ExpiresAt := 10, NotBefore := 0,
    IssuedAt := 0, ID := "00" }

/-- Parser result of the stand-in library for a token string. -/
def toyParsed (tok : String) : ParsedToken :=
  { Claims := some (toyClaims tok), Valid := true }

/-- A small stand-in for the library: the token string is the token type of the
signed claims, and parsing rebuilds claims of that type issued by "chainforge-api". -/
def toyLib : JWTLib where
  sign := fun c _ => .ok c.TokenType
  parse := fun tok kf _ =>
    match kf true with
    | .error err => .error err
    | .ok _ => .ok (toyParsed tok)

/-- A token manager whose access and refresh secrets are equal. -/
def sameSecretManager : TokenManager :=
  { accessSecret := [1, 2, 3], refreshSecret := [1, 2, 3], accessTTL := 900000000000,
    refreshTTL := 604800000000000, issuer := "chainforge-api" }

/-- A token manager configured with another issuer name. -/
def otherIssuerManager : TokenManager :=
  { accessSecret := [1, 2, 3], refreshSecret := [1, 2, 3], accessTTL := 900000000000,
    refreshTTL := 604800000000000, issuer := "someone-else" }

/-! ## Rows of successive missed periods (models/group.go) -/

/-- The rows of one member over successive periods in which no progress is
recorded: row `0` is `start`, and row `k + 1` is
`NewGroupGoalProgress(period, user, b, previous.CalculatePenaltyCarryOver())`
built from row `k`. The fresh ids, period ids and clock readings of the `k`-th
call are `newID k`, `period k` and `now k`. -/
def missedRows (newID period : Nat → UUID) (now : Nat → Time) (b : ℚ)
    (start : GroupGoalProgress) : Nat → GroupGoalProgress
  | 0 => start
  | k + 1 =>
    let previous := missedRows newID period now b start k
    NewGroupGoalProgress (newID k) (now k) (now k) (period k) previous.UserID b
      previous.CalculatePenaltyCarryOver

/-! ## Subscriptions (models/subscription.go) -/

/-- Type `SubscriptionPlan` (subscription.go 21): a string. -/
abbrev SubscriptionPlan := String

/-- Constant `PlanFree` (subscription.go 24). -/
def PlanFree : SubscriptionPlan := "free"

/-- Constant `PlanPremium` (subscription.go 25). -/
def PlanPremium : SubscriptionPlan := "premium"

/-- Type `SubscriptionStatus` (subscription.go 10): a string. -/
abbrev SubscriptionStatus := String

/-- Struct `Subscription` (subscription.go 29-44); pointer fields are options. -/
structure Subscription where
  ID : UUID
  UserID : UUID
  Plan : SubscriptionPlan
  Status : SubscriptionStatus
  StripeCustomerID : Option String
  StripeSubscriptionID : Option String
  StripePriceID : Option String
  TrialStartDate : Option Time
  TrialEndDate : Option Time
  CurrentPeriodStart : Option Time
  CurrentPeriodEnd : Option Time
  CanceledAt : Option Time
  CreatedAt : Time
  UpdatedAt : Time
  deriving DecidableEq

/-- Struct `SubscriptionFeatures` (subscription.go 47-56); `MaxPersonalGoals`
is `none` for the nil pointer (unlimited). -/
structure SubscriptionFeatures where
  Plan : SubscriptionPlan
  MaxPersonalGoals : Option Int
  GroupGoalsAllowed : Bool
  AdvancedAnalytics : Bool
  PrioritySupport : Bool
  CustomCategories : Bool
  DataExport : Bool
  APIAccess : Bool
  deriving DecidableEq

/-- Method `GetFeatures` (subscription.go 242-268). -/
def Subscription.GetFeatures (s : Subscription) : SubscriptionFeatures :=
  if s.Plan = PlanPremium then
    { Plan := PlanPremium
      MaxPersonalGoals := none
      GroupGoalsAllowed := true
      AdvancedAnalytics := true
      PrioritySupport := true
      CustomCategories := true
      DataExport := true
      APIAccess := true }
  else
    let maxGoals : Int := 3
    { Plan := PlanFree
      MaxPersonalGoals := some maxGoals
      GroupGoalsAllowed := false
      AdvancedAnalytics := false
      PrioritySupport := false
      CustomCategories := false
      DataExport := false
      APIAccess := false }

/-- Method `CanCreatePersonalGoal` (subscription.go 270-276). -/
def Subscription.CanCreatePersonalGoal (s : Subscription) (currentGoalCount : Int) : Bool :=
  let features := s.GetFeatures
  match features.MaxPersonalGoals with
  | none => true
  | some maxGoals => decide (currentGoalCount < maxGoals)

/-- A subscription of the given plan, other fields fixed. -/
def subscriptionWith (plan : SubscriptionPlan) : Subscription :=
  { ID := 1, UserID := 2, Plan := plan, Status := "active", StripeCustomerID := none,
    StripeSubscriptionID := none, StripePriceID := none, TrialStartDate := none,
    TrialEndDate := none, CurrentPeriodStart := none, CurrentPeriodEnd := none,
    CanceledAt := none, CreatedAt := 0, UpdatedAt := 0 }

/-! ## Configuration (config/config.go) -/

/-- Struct `ServerConfig` (config.go 22-32); durations are integer nanoseconds. -/
structure ServerConfig where
  Port : Int
  Host : String
  Environment : String
  AllowedOrigins : List String
  ReadTimeout : Int
  WriteTimeout : Int
  IdleTimeout : Int
  RateLimit : ℚ
  RateBurst : Int
  deriving DecidableEq

/-- Struct `DatabaseConfig` (config.go 35-41). -/
structure DatabaseConfig where
  URL : String
  EncryptionKey : String
  MaxOpenConns : Int
  MaxIdleConns : Int
  ConnMaxLife : Int
  deriving DecidableEq

/-- Struct `AuthConfig` (config.go 44-51). -/
structure AuthConfig where
  JWTSecret : String
  RefreshSecret : String
  AccessTokenTTL : Int
  RefreshTokenTTL : Int
  Issuer : String
  PasswordResetTTL : Int
  deriving DecidableEq

/-- Struct `StripeConfig` (config.go 54-60). -/
structure StripeConfig where
  SecretKey : String
  PublishableKey : String
  WebhookSecret : String
  PriceIDMonthly : String
  PriceIDYearly : String
  deriving DecidableEq

/-- Struct `EmailConfig` (config.go 63-69). -/
structure EmailConfig where
  Provider : String
  APIKey : String
  FromEmail : String
  FromName : String
  ReplyToEmail : String
  deriving DecidableEq

/-- Struct `AWSS3Config` (config.go 81-87). -/
structure AWSS3Config where
  Region : String
  Bucket : String
  AccessKeyID : String
  SecretAccessKey : String
  CloudFrontURL : String
  deriving DecidableEq

/-- Struct `StorageConfig` (config.go 72-78); the pointer field is an option. -/
structure StorageConfig where
  Provider : String
  LocalPath : String
  MaxFileSize : Int
  AllowedMimeTypes : List String
  AWSS3Config : Option AWSS3Config
  deriving DecidableEq

/-- Struct `Config` (config.go 12-19). -/
structure Config where
  Server : ServerConfig
  Database : DatabaseConfig
  Auth : AuthConfig
  Stripe : StripeConfig
  Email : EmailConfig
  Storage : StorageConfig
  deriving DecidableEq

/-- Function `contains` (config.go 309-316). -/
def contains : List String → String → Bool
  | [], _ => false
  | s :: rest, item => if s = item then true else contains rest item

/-- Method `Validate` (config.go 181-223): `none` is the nil error, `some msg`
an error with that message. -/
def Config.Validate (c : Config) : Option String :=
  if c.Database.EncryptionKey = "" then some "DB_ENCRYPTION_KEY is required"
  else if c.Auth.JWTSecret = "" then some "JWT_SECRET is required"
  else if c.Auth.RefreshSecret = "" then some "REFRESH_SECRET is required"
  else
    let validEnvs := ["development", "staging", "production"]
    if !contains validEnvs c.Server.Environment then
      some ("invalid environment: " ++ c.Server.Environment ++ " (must be one of: "
        ++ String.intercalate ", " validEnvs ++ ")")
    else if c.Server.Port < 1 ∨ c.Server.Port > 65535 then
      some ("invalid port: " ++ toString c.Server.Port ++ " (must be between 1 and 65535)")
    else
      let validProviders := ["local", "s3"]
      if !contains validProviders c.Storage.Provider then
        some ("invalid storage provider: " ++ c.Storage.Provider ++ " (must be one of: "
          ++ String.intercalate ", " validProviders ++ ")")
      else if c.Server.Environment = "production" then
        if c.Stripe.SecretKey = "" then some "STRIPE_SECRET_KEY is required in production"
        else if c.Stripe.WebhookSecret = "" then
          some "STRIPE_WEBHOOK_SECRET is required in production"
        else none
      else none

/-- A configuration with the defaults of `Load` (config.go 94-159) and the
three required secrets set, for the given environment and Stripe secrets. -/
def configWith (environment stripeKey webhookSecret : String) : Config :=
  { Server := { Port := 8080, Host := "0.0.0.0", Environment := environment,
                AllowedOrigins := ["http://localhost:5173"], ReadTimeout := 15000000000,
                WriteTimeout := 15000000000, IdleTimeout := 60000000000, RateLimit := 100,
                RateBurst := 20 }
    Database := { URL := "./data/chainforge.db", EncryptionKey := "k", MaxOpenConns := 25,
                  MaxIdleConns := 5, ConnMaxLife := 300000000000 }
    Auth := { JWTSecret := "j", RefreshSecret := "r", AccessTokenTTL := 900000000000,
              RefreshTokenTTL := 604800000000000, Issuer := "chainforge",
              PasswordResetTTL := 3600000000000 }
    Stripe := { SecretKey := stripeKey, PublishableKey := "", WebhookSecret := webhookSecret,
                PriceIDMonthly := "", PriceIDYearly := "" }
    Email := { Provider := "console", APIKey := "", FromEmail := "noreply@chainforge.app",
               FromName := "ChainForge", ReplyToEmail := "support@chainforge.app" }
    Storage := { Provider := "local", LocalPath := "./static/uploads", MaxFileSize := 5242880,
                 AllowedMimeTypes := ["image/jpeg"], AWSS3Config := none } }

/-! ## Passwords (auth/password.go)

Go strings are modelled as Lean strings (valid UTF-8); `len(s)` is the number of
bytes of the UTF-8 encoding. -/

/-- Constant `BcryptCost` (password.go 16). -/
def BcryptCost : Int := 12

/-- Constant `MinPasswordLength` (password.go 19). -/
def MinPasswordLength : Int := 8

/-- Constant `MaxPasswordLength` (password.go 22). -/
def MaxPasswordLength : Int := 128

/-- Go builtin `len` on a string: its length in bytes. -/
def len (s : String) : Int := (s.utf8ByteSize : Int)

/-- Bytes of a Go string, as byte values. -/
def bytesOf (s : String) : List Nat :=
  (s.toList.flatMap String.utf8EncodeChar).map UInt8.toNat

/-- Type `PasswordStrength` (password.go 26): an int. -/
abbrev PasswordStrength := Int

/-- Constant `PasswordWeak` (password.go 29). -/
def PasswordWeak : PasswordStrength := 0

/-- Constant `PasswordMedium` (password.go 30). -/
def PasswordMedium : PasswordStrength := 1

/-- Constant `PasswordStrong` (password.go 31). -/
def PasswordStrong : PasswordStrength := 2

/-- Constant `PasswordVeryStrong` (password.go 32). -/
def PasswordVeryStrong : PasswordStrength := 3

/-- Struct `PasswordValidationResult` (password.go 51-57). -/
structure PasswordValidationResult where
  IsValid : Bool
  Strength : PasswordStrength
  Score : Int
  Errors : List String
  Suggestions : List String
  deriving DecidableEq

/-- Function `HashPassword` (password.go 60-75). The external
`bcrypt.GenerateFromPassword([]byte(password), cost)`, with its result turned
into a string, is the parameter `bcryptGenerate`. The result is the pair
(returned string, returned error), `none` being the nil error. -/
def HashPassword (bcryptGenerate : String → Int → Except String String) (password : String) :
    String × Option String :=
  if len password < MinPasswordLength then
    ("", some ("password must be at least " ++ toString MinPasswordLength
      ++ " characters long"))
  else if len password > MaxPasswordLength then
    ("", some ("password must be no more than " ++ toString MaxPasswordLength
      ++ " characters long"))
  else
    match bcryptGenerate password BcryptCost with
    | .error err => ("", some ("failed to hash password: " ++ err))
    | .ok hashedBytes => (hashedBytes, none)

/-- Function `IsPasswordValid` (password.go 83-85). -/
def IsPasswordValid (password : String) : Bool :=
  decide (len password ≥ MinPasswordLength) && decide (len password ≤ MaxPasswordLength)

/-- The functions of the Go standard library used by the strength estimate:
the rune classes of package `unicode` and `strings.ToLower`. -/
structure UnicodeLib where
  IsLower : Char → Bool
  IsUpper : Char → Bool
  IsDigit : Char → Bool
  IsPunct : Char → Bool
  IsSymbol : Char → Bool
  ToLower : String → String

/-- Library function `strings.Contains(s, substr)`. -/
def stringsContains (s substr : String) : Bool :=
  decide (substr.toList <:+: s.toList)

/-- Function `hasRepeatedChars` (password.go 255-267): four equal consecutive bytes. -/
def hasRepeatedChars (password : String) : Bool :=
  if len password < 4 then false
  else
    let b := bytesOf password
    (List.range (len password - 4 + 1).toNat).any (fun i =>
      decide (b.getD i 0 = b.getD (i + 1) 0) && decide (b.getD i 0 = b.getD (i + 2) 0)
        && decide (b.getD i 0 = b.getD (i + 3) 0))

/-- Function `isSequence` (password.go 232-252); `seq[i:i+4]` is taken on the
characters of the (ASCII) sequence. -/
def isSequence (u : UnicodeLib) (password : String) : Bool :=
  let sequences := ["abcdefghijklmnopqrstuvwxyz", "zyxwvutsrqponmlkjihgfedcba", "1234567890",
    "0987654321", "qwertyuiop", "poiuytrewq"]
  let lowPassword := u.ToLower password
  sequences.any (fun seq =>
    (List.range (len seq - 4 + 1).toNat).any (fun i =>
      stringsContains lowPassword (String.mk ((seq.toList.drop i).take 4))))

/-- Function `isCommonPattern` (password.go 204-229). -/
def isCommonPattern (u : UnicodeLib) (password : String) : Bool :=
  let commonPatterns := ["password", "123456", "qwerty", "abc123", "password123",
    "admin", "letmein", "welcome", "monkey", "dragon",
    "111111", "123123", "1234567890", "qwertyuiop"]
  let lowPassword := u.ToLower password
  if commonPatterns.any (fun pattern => stringsContains lowPassword pattern) then true
  else if isSequence u password then true
  else if hasRepeatedChars password then true
  else false

/-- The four flags set by the loop of `calculatePasswordStrength`. -/
structure CharFlags where
  hasLower : Bool
  hasUpper : Bool
  hasNumber : Bool
  hasSpecial : Bool
  deriving DecidableEq

/-- Body of the loop over the runes of the password (password.go 148-159). -/
def classifyChar (u : UnicodeLib) (f : CharFlags) (char : Char) : CharFlags :=
  if u.IsLower char then { f with hasLower := true }
  else if u.IsUpper char then { f with hasUpper := true }
  else if u.IsDigit char then { f with hasNumber := true }
  else if u.IsPunct char || u.IsSymbol char then { f with hasSpecial := true }
  else f

/-- Function `calculatePasswordStrength` (password.go 124-201). -/
def calculatePasswordStrength (u : UnicodeLib) (password : String) : PasswordStrength × Int :=
  let score : Int := 0
  let length := len password
  let score := if length ≥ 8 then score + 10 else score
  let score := if length ≥ 12 then score + 10 else score
  let score := if length ≥ 16 then score + 10 else score
  let score := if length ≥ 20 then score + 10 else score
  let f := password.toList.foldl (classifyChar u)
    { hasLower := false, hasUpper := false, hasNumber := false, hasSpecial := false }
  let score := if f.hasLower then score + 5 else score
  let score := if f.hasUpper then score + 5 else score
  let score := if f.hasNumber then score + 5 else score
  let score := if f.hasSpecial then score + 10 else score
  let score := if f.hasLower && f.hasUpper && f.hasNumber && f.hasSpecial then score + 10
    else score
  let score := if isCommonPattern u password then score - 20 else score
  let score := if score < 0 then 0 else score
  if score ≥ 70 then (PasswordVeryStrong, score)
  else if score ≥ 50 then (PasswordStrong, score)
  else if score ≥ 30 then (PasswordMedium, score)
  else (PasswordWeak, score)

/-- Function `ValidatePassword` (password.go 88-121). -/
def ValidatePassword (u : UnicodeLib) (password : String) : PasswordValidationResult :=
  let result : PasswordValidationResult :=
    { IsValid := true, Strength := 0, Score := 0, Errors := [], Suggestions := [] }
  let result :=
    if len password < MinPasswordLength then
      { result with
        IsValid := false
        Errors := result.Errors ++ ["Password must be at least " ++ toString MinPasswordLength
          ++ " characters long"]
        Suggestions := result.Suggestions ++ ["Use a longer password with mixed characters"] }
    else result
  if len password > MaxPasswordLength then
    { result with
      IsValid := false
      Errors := result.Errors ++ ["Password must be no more than "
        ++ toString MaxPasswordLength ++ " characters long"] }
  else
    let sc := calculatePasswordStrength u password
    let result := { result with Strength := sc.1, Score := sc.2 }
    let result :=
      if result.Strength = PasswordWeak then
        { result with Suggestions := result.Suggestions ++
            ["Consider using a mix of uppercase, lowercase, numbers, and special characters"] }
      else result
    let result :=
      if result.Strength ≤ PasswordMedium then
        { result with Suggestions := result.Suggestions ++
            ["Consider making your password longer"] }
      else result
    result

/-- ASCII stand-in for the rune classes and for `strings.ToLower`. -/
def asciiLib : UnicodeLib where
  IsLower := Char.isLower
  IsUpper := Char.isUpper
  IsDigit := Char.isDigit
  IsPunct := fun c => !c.isAlphanum && decide (32 < c.toNat) && decide (c.toNat < 127)
  IsSymbol := fun _ => false
  ToLower := String.toLower

/-- A stand-in for bcrypt that never fails. -/
def toyBcrypt (password : String) (cost : Int) : Except String String :=
  .ok ("$2a$" ++ toString cost ++ "$" ++ password)

/-- A password of 129 bytes. -/
def longPassword : String := String.mk (List.replicate 129 'a')

/-! ## Random passwords (auth/password.go)

`int` is 64 bits wide. A byte slice that only ever holds ASCII bytes is a list
of characters, and the `i`-th byte of an ASCII string is its `i`-th character.
The random source is the sequence of outcomes of the successive calls of
`rand.Read` on a 4-byte buffer. -/

/-- Four bytes read from the random source. -/
structure RandBytes where
  b0 : Fin 256
  b1 : Fin 256
  b2 : Fin 256
  b3 : Fin 256
  deriving DecidableEq

/-- Outcomes of the successive calls of `rand.Read`: the `k`-th call either
fails with an error or yields four bytes. -/
abbrev RandSource := Nat → Except String RandBytes

/-- Function `randomInt` (password.go 325-344); `read` is the outcome of the
call of `rand.Read`, which happens only when `max` is positive. The four shifted
bytes are below 2^32, so the 64-bit `int` never wraps. -/
def randomInt (read : Except String RandBytes) (max : Int) : Except String Int :=
  if max ≤ 0 then .error "max must be positive"
  else
    match read with
    | .error err => .error err
    | .ok bytes =>
      let num : Int := (((bytes.b0.val <<< 24) ||| (bytes.b1.val <<< 16) |||
        (bytes.b2.val <<< 8) ||| bytes.b3.val : Nat) : Int)
      let num := if num < 0 then -num else num
      .ok (Int.tmod num max)

/-- Go index expression `s[i]` on a string or slice of ASCII bytes; out of
range it panics, which is reported as an error. -/
def byteAt (s : List Char) (i : Int) : Except String Char :=
  if i < 0 then .error "panic: index out of range"
  else
    match s[i.toNat]? with
    | none => .error "panic: index out of range"
    | some c => .ok c

/-- The loop of password.go 289-295 from index `i` with `n` iterations left;
`k` counts the calls of the random source made so far. Returns the slice and
the call count. -/
def fillLoop (src : RandSource) (allChars : String) :
    Nat → Nat → Nat → List Char → Except String (List Char × Nat)
  | 0, _, k, password => .ok (password, k)
  | n + 1, i, k, password =>
    match randomInt (src k) (len allChars) with
    | .error err => .error ("failed to generate random password: " ++ err)
    | .ok randomIndex =>
      match byteAt allChars.toList randomIndex with
      | .error err => .error err
      | .ok c => fillLoop src allChars n (i + 1) (k + 1) (password.set i c)

/-- The loop of password.go 301-309 over the remaining `sets`, at index `i`. -/
def varietyLoop (src : RandSource) (length : Int) :
    List String → Nat → Nat → List Char → Except String (List Char × Nat)
  | [], _, k, password => .ok (password, k)
  | set :: rest, i, k, password =>
    if (i : Int) < length then
      match randomInt (src k) (len set) with
      | .error err => .error ("failed to generate random password: " ++ err)
      | .ok randomIndex =>
        match byteAt set.toList randomIndex with
        | .error err => .error err
        | .ok c => varietyLoop src length rest (i + 1) (k + 1) (password.set i c)
    else varietyLoop src length rest (i + 1) k password

/-- The shuffle loop of password.go 312-318 from index `i` with `n` iterations
left: `password[i], password[j] = password[j], password[i]`. -/
def shuffleLoop (src : RandSource) :
    Nat → Nat → Nat → List Char → Except String (List Char × Nat)
  | 0, _, k, password => .ok (password, k)
  | n + 1, i, k, password =>
    match randomInt (src k) (password.length : Int) with
    | .error err => .error ("failed to shuffle password: " ++ err)
    | .ok j =>
      match byteAt password j with
      | .error err => .error err
      | .ok cj =>
        match byteAt password (i : Int) with
        | .error err => .error err
        | .ok ci =>
          shuffleLoop src n (i + 1) (k + 1) ((password.set i cj).set j.toNat ci)

/-- Local `lowercase` of `GenerateSecurePassword` (password.go 279). -/
def lowercase : String := "abcdefghijklmnopqrstuvwxyz"

/-- Local `uppercase` of `GenerateSecurePassword` (password.go 280). -/
def uppercase : String := "ABCDEFGHIJKLMNOPQRSTUVWXYZ"

/-- Local `numbers` of `GenerateSecurePassword` (password.go 281). -/
def numbers : String := "0123456789"

/-- Local `special` of `GenerateSecurePassword` (password.go 282). -/
def special : String := "!@#$%^&*()_+-=[]\x7b\x7d|;:,.<>?"

/-- Local `allChars` of `GenerateSecurePassword` (password.go 285). -/
def allChars : String := lowercase ++ uppercase ++ numbers ++ special

/-- Function `GenerateSecurePassword` (password.go 270-322) run against the
random source `src`. -/
def GenerateSecurePassword (src : RandSource) (length : Int) : Except String String :=
  let length := if length < MinPasswordLength then MinPasswordLength else length
  let length := if length > MaxPasswordLength then MaxPasswordLength else length
  let password : List Char := List.replicate length.toNat (Char.ofNat 0)
  match fillLoop src allChars password.length 0 0 password with
  | .error err => .error err
  | .ok (password, k) =>
    if length ≥ 4 then
      let sets := [lowercase, uppercase, numbers, special]
      match varietyLoop src length sets 0 k password with
      | .error err => .error err
      | .ok (password, k) =>
        match shuffleLoop src password.length 0 k password with
        | .error err => .error err
        | .ok (password, _) => .ok (String.mk password)
    else .ok (String.mk password)

/-- A random source that never fails: the `k`-th read is the four bytes of `7 * k + 3`. -/
def sampleSource : RandSource := fun k =>
  .ok { b0 := 0, b1 := 0, b2 := Fin.ofNat ((7 * k + 3) / 256), b3 := Fin.ofNat (7 * k + 3) }

/-! ## Leaderboard (models/group.go, models/user.go)

The entry types are those of the source. The ranking function itself is not in
the source files (only its route is registered in main.go 194); it is modelled
from section 4.5 of the specification. -/

/-- Struct `UserProfile` (user.go 24-30). -/
structure UserProfile where
  ID : UUID
  FirstName : String
  LastName : String
  Avatar : Option String
  Timezone : String
  deriving DecidableEq

/-- Struct `LeaderboardEntry` (group.go 146-156). -/
structure LeaderboardEntry where
  Rank : Int
  UserID : UUID
  User : UserProfile
  CurrentAmount : ℚ
  TargetAmount : ℚ
  ProgressPercentage : ℚ
  PenaltyCarryOver : ℚ
  IsCompleted : Bool
  Points : Int
  deriving DecidableEq

/-- Modelled from the spec: the ranking function is missing from the source.
Completion of a row is computed from its amounts, "true iff
`currentAmount >= targetAmount`" (spec section 3). -/
def rowCompleted (r : GroupGoalProgress) : Bool :=
  decide (r.CurrentAmount ≥ r.TargetAmount)

/-- Modelled from the spec: the ranking function is missing from the source.
Sort key of spec section 4.5, in descending priority: completed rows first, then
the uncapped ratio `currentAmount/targetAmount` (higher first), then the lower
`penaltyCarryOver`, then the member identifier ascending. Keys are compared
lexicographically; a smaller key ranks first. -/
def sortKey (r : GroupGoalProgress) : Lex (Bool × Lex (ℚ × Lex (ℚ × Nat))) :=
  toLex (!rowCompleted r,
    toLex (-(r.CurrentAmount / r.TargetAmount), toLex (r.PenaltyCarryOver, r.UserID)))

/-- Modelled from the spec: the ranking function is missing from the source.
Row `a` is ranked no later than row `b`. -/
def rankOrder (a b : GroupGoalProgress) : Prop := sortKey a ≤ sortKey b

instance rankOrderDecidable : DecidableRel rankOrder :=
  fun a b => inferInstanceAs (Decidable (sortKey a ≤ sortKey b))

/-- Modelled from the spec: the ranking function is missing from the source.
The rows of a period in ranking order. -/
def sortRows (rows : List GroupGoalProgress) : List GroupGoalProgress :=
  rows.insertionSort rankOrder

/-- Modelled from the spec: the ranking function is missing from the source.
`rank(periodProgressRows)` of spec section 4.5: the rows in ranking order, each
with its integer rank starting at 1 (standard competition ranking: one more than
the number of rows with a strictly smaller key, so ties share a rank), the
display percentage capped at 100, and the points of the configurable scheme
`points`, a function of the rank. `profile` looks up a member's profile. -/
def rank (points : Int → Int) (profile : UUID → UserProfile)
    (rows : List GroupGoalProgress) : List LeaderboardEntry :=
  let sorted := sortRows rows
  sorted.map (fun r =>
    let rk : Int := 1 + ((sorted.filter (fun x => decide (sortKey x < sortKey r))).length : Int)
    { Rank := rk
      UserID := r.UserID
      User := profile r.UserID
      CurrentAmount := r.CurrentAmount
      TargetAmount := r.TargetAmount
      ProgressPercentage := r.CalculateProgressPercentage
      PenaltyCarryOver := r.PenaltyCarryOver
      IsCompleted := rowCompleted r
      Points := points rk })

/-- A progress row of member `user` with the given target and achieved amounts. -/
def memberRow (user : UUID) (t c : ℚ) : GroupGoalProgress :=
  { ID := 10 + user, GroupGoalPeriodID := 2, UserID := user, TargetAmount := t,
    CurrentAmount := c, PenaltyCarryOver := 0, DailyEntries := "[]", IsCompleted := false,
    CreatedAt := 0, UpdatedAt := 0 }

/-- Profile lookup used in the examples. -/
def sampleProfile (user : UUID) : UserProfile :=
  { ID := user, FirstName := "member", LastName := toString user, Avatar := none,
    Timezone := "UTC" }

/-- A points scheme decreasing with the rank. -/
def samplePoints (rk : Int) : Int := 100 - 10 * rk

/-- Scenario E, the two progress rows: member 5 at 99 of 100, member 3 at 10 of 10. -/
def scenarioERows : List GroupGoalProgress := [memberRow 5 100 99, memberRow 3 10 10]

/-- Scenario E, expected first leaderboard entry: member 3, completed. -/
def scenarioEFirst : LeaderboardEntry :=
  { Rank := 1, UserID := 3, User := sampleProfile 3, CurrentAmount := 10, TargetAmount := 10,
    ProgressPercentage := 100, PenaltyCarryOver := 0, IsCompleted := true, Points := 90 }

/-- Scenario E, expected second leaderboard entry: member 5, at 99 percent. -/
def scenarioESecond : LeaderboardEntry :=
  { Rank := 2, UserID := 5, User := sampleProfile 5, CurrentAmount := 99, TargetAmount := 100,
    ProgressPercentage := 99, PenaltyCarryOver := 0, IsCompleted := false, Points := 80 }

/-! ## Period transitions (models/group.go; the sweep is modelled from the spec)

`GroupService.ProcessPeriodTransitions` is called by the background task of
main.go 267 but is not in the source files; the sweep below follows sections
4.1, 4.2 and 4.4 of the specification and uses the constructors of group.go. -/

/-- Struct `GroupGoal` (group.go 56-67). -/
structure GroupGoal where
  ID : UUID
  GroupID : UUID
  Name : String
  Description : Option String
  Unit : String
  PeriodType : String
  IsActive : Bool
  CreatedBy : UUID
  CreatedAt : Time
  UpdatedAt : Time
  deriving DecidableEq

/-- Modelled from the spec: the temporal period calculator is missing from the
source. `boundsFor(periodType, referenceInstant) -> (start, end)` of spec
section 4.1, taken as a parameter of the sweep. -/
abbrev BoundsFor := String → Time → Time × Time

/-- Modelled from the spec: the persistence gateway is missing from the source.
What is stored for one goal: the goal, its configured base target, the currently
active members of its group, its periods in order of creation, the progress rows
of these periods, and the next unused identifier. -/
structure GoalStore where
  goal : GroupGoal
  baseTarget : ℚ
  members : List UUID
  periods : List GroupGoalPeriod
  rows : List GroupGoalProgress
  nextID : Nat
  deriving DecidableEq

/-- Modelled from the spec: the progress ledger is missing from the source.
`finalize(period)` of spec section 4.2 marks `period.active = false`. -/
def finalize (p : GroupGoalPeriod) : GroupGoalPeriod := { p with IsActive := false }

/-- Modelled from the spec: the orchestrator is missing from the source.
The active period of a goal, if one exists. -/
def activePeriod (periods : List GroupGoalPeriod) : Option GroupGoalPeriod :=
  periods.find? (fun p => p.IsActive)

/-- Modelled from the spec: the orchestrator is missing from the source.
Step 2 of spec section 4.4 on the stored periods: "finalize the active period
if one exists". -/
def finalizeActive : List GroupGoalPeriod → List GroupGoalPeriod
  | [] => []
  | p :: rest => if p.IsActive then finalize p :: rest else p :: finalizeActive rest

/-- Modelled from the spec: the penalty calculator's caller is missing from the
source. Step 3 of spec section 4.4: the carry-over of the member's row in the
period just finalized; a member absent from that period has penalty 0 (spec
section 4.3). -/
def penaltyFor (rows : List GroupGoalProgress) (finalized : Option GroupGoalPeriod)
    (member : UUID) : ℚ :=
  match finalized with
  | none => 0
  | some p =>
    match rows.find? (fun r => decide (r.GroupGoalPeriodID = p.ID) && decide (r.UserID = member))
    with
    | none => 0
    | some r => r.CalculatePenaltyCarryOver

/-- Modelled from the spec: the progress ledger is missing from the source.
`open(period, members, baseTarget, penaltyByMember)` of spec section 4.2: one row
per member, built by `NewGroupGoalProgress`; a member who already has a row for
the period is skipped (the orchestrator treats the duplicate as a no-op). -/
def openRows (now : Time) (period : GroupGoalPeriod) (baseTarget : ℚ)
    (penaltyByMember : UUID → ℚ) :
    List UUID → Nat → List GroupGoalProgress → List GroupGoalProgress × Nat
  | [], nextID, rows => (rows, nextID)
  | member :: rest, nextID, rows =>
    if rows.any (fun r => decide (r.GroupGoalPeriodID = period.ID) && decide (r.UserID = member))
    then openRows now period baseTarget penaltyByMember rest nextID rows
    else openRows now period baseTarget penaltyByMember rest (nextID + 1)
      (rows ++ [NewGroupGoalProgress nextID now now period.ID member baseTarget
        (penaltyByMember member)])

/-- Modelled from the spec: the orchestrator is missing from the source.
Step 2 of spec section 4.4, the test: no active period exists, or the active
period's `end <= now`. -/
def needsTransition (now : Time) (st : GoalStore) : Bool :=
  match activePeriod st.periods with
  | none => true
  | some p => decide (p.EndDate ≤ now)

/-- Modelled from the spec: the orchestrator is missing from the source.
Steps 2 to 6 of spec section 4.4 for one goal: finalize the active period if one
exists, compute the carry-over of its rows, take the next boundaries anchored at
the finalized period's end (with no period to finalize, the boundaries of the
current period at `now`), create the next period with `NewGroupGoalPeriod`
(active), and open its rows for the current members. -/
def transition (boundsFor : BoundsFor) (now : Time) (st : GoalStore) : GoalStore :=
  let finalized := activePeriod st.periods
  let periods := finalizeActive st.periods
  let bounds : Time × Time :=
    match finalized with
    | some p => (p.EndDate, (boundsFor st.goal.PeriodType p.EndDate).2)
    | none => boundsFor st.goal.PeriodType now
  let next := NewGroupGoalPeriod st.nextID now st.goal.ID bounds.1 bounds.2
  let opened := openRows now next st.baseTarget (penaltyFor st.rows finalized) st.members
    (st.nextID + 1) st.rows
  { st with periods := periods ++ [next], rows := opened.1, nextID := opened.2 }

/-- Modelled from the spec: the orchestrator is missing from the source.
The sweep of spec section 4.4 for one goal, as a loop of at most `fuel`
transitions: an inactive goal, or a goal whose active period has not ended, is
left alone; otherwise the transition is made and the test repeated (catch-up of
missed periods, in chronological order). -/
def sweepGoal (boundsFor : BoundsFor) (now : Time) : Nat → GoalStore → GoalStore
  | 0, st => st
  | fuel + 1, st =>
    if st.goal.IsActive && needsTransition now st then
      sweepGoal boundsFor now fuel (transition boundsFor now st)
    else st

/-- Modelled from the spec: the orchestrator is missing from the source.
Number of transitions that suffices to catch up at `now` when every period
lasts at least one time unit: one per unit between the end of the active period
and `now`, and two more. -/
def sweepFuel (now : Time) (st : GoalStore) : Nat :=
  match activePeriod st.periods with
  | none => 1
  | some p => (now - p.EndDate).toNat + 2

/-- Modelled from the spec: `GroupService.ProcessPeriodTransitions` is missing
from the source. One run of the sweep at instant `now` over all stored goals,
each goal processed independently. -/
def ProcessPeriodTransitions (boundsFor : BoundsFor) (now : Time) (stores : List GoalStore) :
    List GoalStore :=
  stores.map (fun st => sweepGoal boundsFor now (sweepFuel now st) st)

/-- Modelled from the spec: successive runs of the sweep at the instants `ticks`. -/
def runSweeps (boundsFor : BoundsFor) (ticks : List Time) (stores : List GoalStore) :
    List GoalStore :=
  ticks.foldl (fun s now => ProcessPeriodTransitions boundsFor now s) stores

/-- Modelled from the spec: contiguity of two consecutive periods,
`P'.start == P.end`. -/
def Contiguous (p q : GroupGoalPeriod) : Prop := q.StartDate = p.EndDate

/-- Modelled from the spec: the periods of a goal as the sweep leaves them:
consecutive periods are contiguous, and either there is no period or the latest
period is the active one and all earlier periods are finalized. -/
def PeriodsOK (periods : List GroupGoalPeriod) : Prop :=
  periods.Chain' Contiguous ∧
  (periods = [] ∨ ∃ earlier latest, periods = earlier ++ [latest] ∧ latest.IsActive = true ∧
    ∀ p ∈ earlier, p.IsActive = false)

/-- One week in nanoseconds. -/
def week : Int := 604800000000000

/-- Stand-in period calculator: weeks from Monday 00:00 UTC (1970-01-05 is a
Monday, four days after the origin of `Time`), for every period type. -/
def weeklyBounds : BoundsFor := fun _ t =>
  let start := t - (t - 4 * 86400000000000) % week
  (start, start + week)

/-- A weekly goal of group 1. -/
def sampleGoal : GroupGoal :=
  { ID := 50, GroupID := 1, Name := "run", Description := none, Unit := "km",
    PeriodType := "weekly", IsActive := true, CreatedBy := 3, CreatedAt := 0, UpdatedAt := 0 }

/-- The store of `sampleGoal` before any sweep: base target 10, members 3 and 5. -/
def sampleStore : GoalStore :=
  { goal := sampleGoal, baseTarget := 10, members := [3, 5], periods := [], rows := [],
    nextID := 1000 }

/-! ## Float64 arithmetic of the progress rows (models/group.go)

The amounts of group.go are `float64`. To follow the code's own arithmetic, the
finite float64 values are the rationals `m * 2 ^ e` with `|m| < 2 ^ 53` and
`e >= -1074`, and each operation returns the exact result rounded to the nearest
such value, ties to the even significand (IEEE 754 binary64, round to nearest
even). Overflow to infinity, NaN and the sign of zero are outside the model. -/

/-- Round to the nearest integer, ties to the even one. -/
def roundHalfEven (q : ℚ) : Int :=
  let f := ⌊q⌋
  let r := q - f
  if r < 1 / 2 then f
  else if r > 1 / 2 then f + 1
  else if f % 2 = 0 then f else f + 1

/-- Number of halvings that bring `n` below 2, with at most `fuel` halvings;
with `fuel = n` this is the position of the highest bit of `n`. -/
def log2Fuel : Nat → Nat → Nat
  | 0, _ => 0
  | fuel + 1, n => if n < 2 then 0 else log2Fuel fuel (n / 2) + 1

/-- The integer `L` with `2 ^ L <= x < 2 ^ (L + 1)`, for a positive rational `x`. -/
def floorLog2 (x : ℚ) : Int :=
  let c : Int := (log2Fuel x.num.natAbs x.num.natAbs : Int) - (log2Fuel x.den x.den : Int)
  if (2 : ℚ) ^ c ≤ x then c else c - 1

/-- The float64 value nearest to the exact result `x` (ties to even): the unit
in the last place is `2 ^ (L - 52)` for `2 ^ L <= |x| < 2 ^ (L + 1)`, and
`2 ^ (-1074)` in the subnormal range. -/
def roundF64 (x : ℚ) : ℚ :=
  if x = 0 then 0
  else
    let e : Int := max (floorLog2 |x| - 52) (-1074)
    (roundHalfEven (x / (2 : ℚ) ^ e) : ℚ) * (2 : ℚ) ^ e

/-- Constructor `NewGroupGoalProgress` (group.go 256-269) in float64 arithmetic:
the sum of line 261 is rounded. -/
def NewGroupGoalProgressF64 (newID : UUID) (now1 now2 : Time)
    (periodID userID : UUID) (targetAmount penaltyCarryOver : ℚ) : GroupGoalProgress :=
  { ID := newID
    GroupGoalPeriodID := periodID
    UserID := userID
    TargetAmount := roundF64 (targetAmount + penaltyCarryOver)
    CurrentAmount := 0
    PenaltyCarryOver := penaltyCarryOver
    DailyEntries := "[]"
    IsCompleted := false
    CreatedAt := now1
    UpdatedAt := now2 }

/-- Method `CalculatePenaltyCarryOver` (group.go 291-297) in float64 arithmetic:
the difference of line 292 is rounded. -/
def GroupGoalProgress.CalculatePenaltyCarryOverF64 (gp : GroupGoalProgress) : ℚ :=
  let deficit := roundF64 (gp.TargetAmount - gp.CurrentAmount)
  if deficit ≤ 0 then 0 else deficit

/-- The rows of one member over successive periods without progress, as
`missedRows`, computed in float64 arithmetic. -/
def missedRowsF64 (newID period : Nat → UUID) (now : Nat → Time) (b : ℚ)
    (start : GroupGoalProgress) : Nat → GroupGoalProgress
  | 0 => start
  | k + 1 =>
    let previous := missedRowsF64 newID period now b start k
    NewGroupGoalProgressF64 (newID k) (now k) (now k) (period k) previous.UserID b
      previous.CalculatePenaltyCarryOverF64

/-- The float64 value nearest to 0.7 (bits 0x3FE6666666666666). -/
def nearest07 : ℚ := 3152519739159347 / 4503599627370496

/-! ## Penalty carry-over and row creation -/

/-- C1: `CalculatePenaltyCarryOver` returns `max(0, TargetAmount - CurrentAmount)`
for every progress row. -/
theorem C1_carryOver_eq_max (gp : GroupGoalProgress) :
    gp.CalculatePenaltyCarryOver = max 0 (gp.TargetAmount - gp.CurrentAmount) := by
  unfold GroupGoalProgress.CalculatePenaltyCarryOver
  by_cases h : gp.TargetAmount - gp.CurrentAmount ≤ 0
  · simp [h]
  · have h1 : 0 ≤ gp.TargetAmount - gp.CurrentAmount := le_of_lt (not_le.mp h)
    simp [h, h1]

/-- C2: the carry-over is never negative, and it is exactly zero whenever the
achieved amount reaches or exceeds the target. -/
theorem C2_carryOver_nonneg_and_zero (gp : GroupGoalProgress) :
    0 ≤ gp.CalculatePenaltyCarryOver ∧
      (gp.CurrentAmount ≥ gp.TargetAmount → gp.CalculatePenaltyCarryOver = 0) := by
  unfold GroupGoalProgress.CalculatePenaltyCarryOver
  constructor
  · by_cases h : gp.TargetAmount - gp.CurrentAmount ≤ 0
    · simp [h]
    · simp only [h, if_false]
      exact le_of_lt (not_le.mp h)
  · intro hge
    have h : gp.TargetAmount - gp.CurrentAmount ≤ 0 := by linarith
    simp [h]

/-- C2 instance: a member who logged 12 against a target of 10 carries over 0. -/
theorem C2_carryOver_witness :
    (rowWith 10 12).CurrentAmount ≥ (rowWith 10 12).TargetAmount ∧
      (rowWith 10 12).CalculatePenaltyCarryOver = 0 :=
  ⟨by decide, (C2_carryOver_nonneg_and_zero (rowWith 10 12)).2 (by decide)⟩

/-- C3: `NewGroupGoalProgress(period, user, b, p)` has target `b + p`, stored
penalty `p`, current amount `0` and the given ids; with `p = 0` the target is
the base target. -/
theorem C3_newProgress_fields (newID : UUID) (now1 now2 : Time) (period user : UUID) (b p : ℚ) :
    (NewGroupGoalProgress newID now1 now2 period user b p).TargetAmount = b + p ∧
    (NewGroupGoalProgress newID now1 now2 period user b p).PenaltyCarryOver = p ∧
    (NewGroupGoalProgress newID now1 now2 period user b p).CurrentAmount = 0 ∧
    (NewGroupGoalProgress newID now1 now2 period user b p).GroupGoalPeriodID = period ∧
    (NewGroupGoalProgress newID now1 now2 period user b p).UserID = user ∧
    (NewGroupGoalProgress newID now1 now2 period user b 0).TargetAmount = b := by
  simp [NewGroupGoalProgress]

/-- C4: the successor row built from a finished row `r` and base target `b` has
target `b + max(0, r.TargetAmount - r.CurrentAmount)`, which is never below `b`;
scenario A (10, 10, 8) gives 12 and scenario B (10, 10, 12) gives 10. -/
theorem C4_successor_target (newID : UUID) (now1 now2 : Time) (nextPeriod : UUID)
    (r : GroupGoalProgress) (b : ℚ) :
    (NewGroupGoalProgress newID now1 now2 nextPeriod r.UserID b
        r.CalculatePenaltyCarryOver).TargetAmount
      = b + max 0 (r.TargetAmount - r.CurrentAmount) ∧
    b ≤ (NewGroupGoalProgress newID now1 now2 nextPeriod r.UserID b
        r.CalculatePenaltyCarryOver).TargetAmount ∧
    (NewGroupGoalProgress newID now1 now2 nextPeriod (rowWith 10 8).UserID 10
        (rowWith 10 8).CalculatePenaltyCarryOver).TargetAmount = 12 ∧
    (NewGroupGoalProgress newID now1 now2 nextPeriod (rowWith 10 12).UserID 10
        (rowWith 10 12).CalculatePenaltyCarryOver).TargetAmount = 10 := by
  have hmax : r.CalculatePenaltyCarryOver = max 0 (r.TargetAmount - r.CurrentAmount) := by
    unfold GroupGoalProgress.CalculatePenaltyCarryOver
    by_cases h : r.TargetAmount - r.CurrentAmount ≤ 0
    · simp [h]
    · have h1 : 0 ≤ r.TargetAmount - r.CurrentAmount := le_of_lt (not_le.mp h)
      simp [h, h1]
  refine ⟨?_, ?_, ?_, ?_⟩
  · simp [NewGroupGoalProgress, hmax]
  · simp [NewGroupGoalProgress, hmax]
  · simp only [NewGroupGoalProgress, GroupGoalProgress.CalculatePenaltyCarryOver, rowWith]
    norm_num
  · simp only [NewGroupGoalProgress, GroupGoalProgress.CalculatePenaltyCarryOver, rowWith]
    norm_num

/-! ## Completion flag, percentage, period creation -/

/-- C5 (as stated) fails: the row created for base target 0 and penalty 0 has
`CurrentAmount >= TargetAmount` (0 >= 0) while its stored flag is false. -/
theorem C5_flag_counterexample :
    ¬ ((NewGroupGoalProgress 7 0 0 1 2 0 0).IsCompleted = true ↔
        (NewGroupGoalProgress 7 0 0 1 2 0 0).CurrentAmount ≥
          (NewGroupGoalProgress 7 0 0 1 2 0 0).TargetAmount) := by
  simp [NewGroupGoalProgress]

/-- C5 (amended): for every base target `b` and penalty `p` with `b + p > 0`,
the row returned by `NewGroupGoalProgress` has its `IsCompleted` flag true if
and only if `CurrentAmount >= TargetAmount` (both are false). -/
theorem C5_flag_iff_of_pos_target (newID : UUID) (now1 now2 : Time) (period user : UUID)
    (b p : ℚ) (hpos : 0 < b + p) :
    ((NewGroupGoalProgress newID now1 now2 period user b p).IsCompleted = true ↔
      (NewGroupGoalProgress newID now1 now2 period user b p).CurrentAmount ≥
        (NewGroupGoalProgress newID now1 now2 period user b p).TargetAmount) := by
  simp only [NewGroupGoalProgress]
  constructor
  · intro h
    exact absurd h (by decide)
  · intro h
    exact absurd h (not_le.mpr hpos)

/-- C5 instance: base target 10 with inherited penalty 2. -/
theorem C5_flag_iff_witness :
    (0 : ℚ) < 10 + 2 ∧
    ((NewGroupGoalProgress 7 0 0 1 2 10 2).IsCompleted = true ↔
      (NewGroupGoalProgress 7 0 0 1 2 10 2).CurrentAmount ≥
        (NewGroupGoalProgress 7 0 0 1 2 10 2).TargetAmount) :=
  ⟨by norm_num, C5_flag_iff_of_pos_target 7 0 0 1 2 10 2 (by norm_num)⟩

/-- C6: `CalculateProgressPercentage` is 0 when the target is not positive and
otherwise `min(100, CurrentAmount / TargetAmount * 100)`; it never exceeds 100
and is exactly 100 whenever `CurrentAmount >= TargetAmount > 0`. -/
theorem C6_percentage (gp : GroupGoalProgress) :
    (gp.TargetAmount ≤ 0 → gp.CalculateProgressPercentage = 0) ∧
    (0 < gp.TargetAmount →
      gp.CalculateProgressPercentage = min 100 (gp.CurrentAmount / gp.TargetAmount * 100)) ∧
    gp.CalculateProgressPercentage ≤ 100 ∧
    (gp.CurrentAmount ≥ gp.TargetAmount → gp.TargetAmount > 0 →
      gp.CalculateProgressPercentage = 100) := by
  have hmin : 0 < gp.TargetAmount →
      gp.CalculateProgressPercentage = min 100 (gp.CurrentAmount / gp.TargetAmount * 100) := by
    intro hT
    unfold GroupGoalProgress.CalculateProgressPercentage
    rw [if_neg (not_le.mpr hT)]
    by_cases h : gp.CurrentAmount / gp.TargetAmount * 100 > 100
    · simp only [h, if_true]
      exact (min_eq_left (le_of_lt h)).symm
    · simp only [h, if_false]
      exact (min_eq_right (not_lt.mp h)).symm
  refine ⟨?_, hmin, ?_, ?_⟩
  · intro hT
    unfold GroupGoalProgress.CalculateProgressPercentage
    rw [if_pos hT]
  · by_cases hT : gp.TargetAmount ≤ 0
    · unfold GroupGoalProgress.CalculateProgressPercentage
      rw [if_pos hT]
      norm_num
    · rw [hmin (not_le.mp hT)]
      exact min_le_left _ _
  · intro hge hT
    rw [hmin hT]
    apply min_eq_left
    have h1 : 1 ≤ gp.CurrentAmount / gp.TargetAmount := (one_le_div hT).mpr hge
    linarith

/-- C6 instances: a zero target displays 0; 8 of 10 displays `min 100 (8 / 10 * 100)`;
12 achieved against a target of 10 displays exactly 100. -/
theorem C6_percentage_witness :
    ((rowWith 0 5).TargetAmount ≤ 0 ∧ (rowWith 0 5).CalculateProgressPercentage = 0) ∧
    (0 < (rowWith 10 8).TargetAmount ∧
      (rowWith 10 8).CalculateProgressPercentage =
        min 100 ((rowWith 10 8).CurrentAmount / (rowWith 10 8).TargetAmount * 100)) ∧
    ((rowWith 10 12).CurrentAmount ≥ (rowWith 10 12).TargetAmount ∧
      (rowWith 10 12).TargetAmount > 0 ∧
      (rowWith 10 12).CalculateProgressPercentage = 100) :=
  ⟨⟨by decide, (C6_percentage (rowWith 0 5)).1 (by decide)⟩,
    ⟨by decide, (C6_percentage (rowWith 10 8)).2.1 (by decide)⟩,
    ⟨by decide, by decide, (C6_percentage (rowWith 10 12)).2.2.2 (by decide) (by decide)⟩⟩

/-- C7: `NewGroupGoalPeriod(goal, start, end)` returns an active period of that
goal whose boundaries are the given instants, unchanged. -/
theorem C7_newPeriod_fields (newID : UUID) (now : Time) (goal : UUID) (startDate endDate : Time) :
    (NewGroupGoalPeriod newID now goal startDate endDate).IsActive = true ∧
    (NewGroupGoalPeriod newID now goal startDate endDate).GroupGoalID = goal ∧
    (NewGroupGoalPeriod newID now goal startDate endDate).StartDate = startDate ∧
    (NewGroupGoalPeriod newID now goal startDate endDate).EndDate = endDate := by
  simp [NewGroupGoalPeriod]

/-! ## Token blacklist -/

/-- On a list without duplicate keys, erasing a key keeps exactly the entries
with another key. -/
theorem kerase_eq_filter_of_nodupKeys (a : String) :
    ∀ (l : List (Sigma (fun _ : String => Time))), l.NodupKeys →
      l.kerase a = l.filter (fun x => decide (x.1 ≠ a))
  | [], _ => rfl
  | s :: l, hnd => by
    rw [List.nodupKeys_cons] at hnd
    by_cases h : a = s.1
    · rw [List.kerase_cons_eq h]
      have hs : ¬ (decide (s.1 ≠ a) = true) := by simp [h]
      rw [List.filter_cons, if_neg hs]
      symm
      rw [List.filter_eq_self]
      intro x hx
      have hxk : x.1 ∈ l.keys := List.mem_keys_of_mem hx
      have : x.1 ≠ a := by
        intro hxa
        apply hnd.1
        rw [← h, ← hxa]
        exact hxk
      simpa using this
    · rw [List.kerase_cons_ne h]
      have hs : decide (s.1 ≠ a) = true := by simpa using (fun h' => h h'.symm)
      rw [List.filter_cons, if_pos hs, kerase_eq_filter_of_nodupKeys a l hnd.2]

/-- The loop of `Cleanup` over the entries `l`, started from the map `m`, keeps
the entries of `m` whose key is not the key of an expired entry of `l`. -/
theorem foldl_cleanupStep_entries (now : Time) :
    ∀ (l : List (Sigma (fun _ : String => Time))) (m : AList (fun _ : String => Time)),
      (l.foldl (cleanupStep now) m).entries =
        m.entries.filter (fun x => !(l.any (fun y => decide (y.1 = x.1) && Time.After now y.2)))
  | [], m => by simp
  | y :: l, m => by
    rw [List.foldl_cons, foldl_cleanupStep_entries now l]
    unfold cleanupStep
    by_cases hy : Time.After now y.2 = true
    · rw [if_pos hy]
      show List.filter _ (m.entries.kerase y.1) = _
      rw [kerase_eq_filter_of_nodupKeys y.1 m.entries m.nodupKeys, List.filter_filter]
      apply List.filter_congr
      intro x _
      simp only [List.any_cons, hy, Bool.and_true, Bool.not_or]
      by_cases hxy : y.1 = x.1
      · simp [hxy]
      · have : ¬ x.1 = y.1 := fun h => hxy h.symm
        simp [hxy, this]
    · rw [if_neg hy]
      apply List.filter_congr
      intro x _
      have hy2 : Time.After now y.2 = false := by simpa using hy
      simp [List.any_cons, hy2]

/-- Entries left by `Cleanup`: those of the old map that are not expired at `now`. -/
theorem cleanup_entries (tb : TokenBlacklist) (now : Time) :
    (tb.Cleanup now).tokens.entries =
      tb.tokens.entries.filter (fun x => !Time.After now x.2) := by
  unfold TokenBlacklist.Cleanup
  rw [foldl_cleanupStep_entries]
  apply List.filter_congr
  intro x hx
  by_cases hexp : Time.After now x.2 = true
  · have : (tb.tokens.entries.any (fun y => decide (y.1 = x.1) && Time.After now y.2)) = true := by
      rw [List.any_eq_true]
      exact ⟨x, hx, by simp [hexp]⟩
    simp [this, hexp]
  · have hexp2 : Time.After now x.2 = false := by simpa using hexp
    have : (tb.tokens.entries.any (fun y => decide (y.1 = x.1) && Time.After now y.2)) = false := by
      rw [List.any_eq_false]
      intro y hy hc
      simp only [Bool.and_eq_true, decide_eq_true_eq] at hc
      have hyx : y = x := tb.tokens.nodupKeys.eq_of_fst_eq hy hx hc.1
      rw [hyx, hexp2] at hc
      exact absurd hc.2 (by decide)
    simp [this, hexp2]

/-- C8: `IsBlacklisted(jti)` answers true exactly when `jti` has an entry whose
expiry `e` is not before `now` (so still true at `now = e`), the entry of a
token always holds the expiry given by the latest `Add`, and a token that was
never added is not blacklisted. -/
theorem C8_isBlacklisted_iff (tb : TokenBlacklist) (now : Time) (jti : String) :
    ((tb.IsBlacklisted now jti).1 = true ↔
        ∃ e, tb.tokens.lookup jti = some e ∧ Time.After now e = false) ∧
    (tb.tokens.lookup jti = some now → (tb.IsBlacklisted now jti).1 = true) ∧
    (tb.tokens.lookup jti = none → (tb.IsBlacklisted now jti).1 = false) ∧
    (NewTokenBlacklist.IsBlacklisted now jti).1 = false ∧
    (∀ e, (tb.Add jti e).tokens.lookup jti = some e ∧
      (((tb.Add jti e).IsBlacklisted now jti).1 = true ↔ now ≤ e)) ∧
    (∀ other e, other ≠ jti →
      (tb.Add other e).tokens.lookup jti = tb.tokens.lookup jti) := by
  have key : ∀ (t : TokenBlacklist),
      ((t.IsBlacklisted now jti).1 = true ↔
        ∃ e, t.tokens.lookup jti = some e ∧ Time.After now e = false) := by
    intro t
    unfold TokenBlacklist.IsBlacklisted
    cases hl : t.tokens.lookup jti with
    | none => simp
    | some e =>
      by_cases ha : Time.After now e = true
      · simp [ha]
      · simp [ha]
  refine ⟨key tb, ?_, ?_, ?_, ?_, ?_⟩
  · intro h
    exact (key tb).mpr ⟨now, h, by simp [Time.After]⟩
  · intro h
    unfold TokenBlacklist.IsBlacklisted
    rw [h]
  · unfold TokenBlacklist.IsBlacklisted NewTokenBlacklist
    rw [AList.lookup_empty]
  · intro e
    have hl : (tb.Add jti e).tokens.lookup jti = some e := AList.lookup_insert tb.tokens
    refine ⟨hl, ?_⟩
    rw [key, hl]
    simp [Time.After]
  · intro other e hne
    exact AList.lookup_insert_ne (fun h => hne h.symm)

/-- C8 instances: token "a", blacklisted until instant 100, is still blacklisted
at instant 100; token "c" was never added and is not blacklisted; adding
another token leaves the entry of "a" as it was. -/
theorem C8_isBlacklisted_witness :
    (sampleBlacklist.tokens.lookup "a" = some 100 ∧
      (sampleBlacklist.IsBlacklisted 100 "a").1 = true) ∧
    (sampleBlacklist.tokens.lookup "c" = none ∧
      (sampleBlacklist.IsBlacklisted 100 "c").1 = false) ∧
    ("c" ≠ "a" ∧
      (sampleBlacklist.Add "c" 7).tokens.lookup "a" = sampleBlacklist.tokens.lookup "a") :=
  ⟨⟨by decide, (C8_isBlacklisted_iff sampleBlacklist 100 "a").2.1 (by decide)⟩,
    ⟨by decide, (C8_isBlacklisted_iff sampleBlacklist 100 "c").2.2.1 (by decide)⟩,
    ⟨by decide, (C8_isBlacklisted_iff sampleBlacklist 100 "a").2.2.2.2.2 "c" 7 (by decide)⟩⟩

/-- C9: after `Cleanup` the blacklist holds exactly the entries whose expiry is
not before `now`, each with its expiry unchanged, and `GetBlacklistedCount`
returns their number. -/
theorem C9_cleanup_exact (tb : TokenBlacklist) (now : Time) :
    (∀ jti e, (tb.Cleanup now).tokens.lookup jti = some e ↔
        (tb.tokens.lookup jti = some e ∧ ¬ e < now)) ∧
    (tb.Cleanup now).tokens.entries =
      tb.tokens.entries.filter (fun x => decide (¬ x.2 < now)) ∧
    (tb.Cleanup now).GetBlacklistedCount =
      ((tb.tokens.entries.filter (fun x => decide (¬ x.2 < now))).length : Int) ∧
    (cleanupAndCount tb now).2 =
      ((tb.tokens.entries.filter (fun x => decide (¬ x.2 < now))).length : Int) := by
  have hent : (tb.Cleanup now).tokens.entries =
      tb.tokens.entries.filter (fun x => decide (¬ x.2 < now)) := by
    rw [cleanup_entries]
    apply List.filter_congr
    intro x _
    by_cases h : x.2 < now
    · simp [Time.After, h]
    · simp [Time.After, h]
  refine ⟨?_, hent, ?_, ?_⟩
  · intro jti e
    rw [← Option.mem_def, AList.mem_lookup_iff, ← Option.mem_def, AList.mem_lookup_iff, hent,
      List.mem_filter]
    simp
  · unfold TokenBlacklist.GetBlacklistedCount
    rw [hent]
  · unfold cleanupAndCount TokenBlacklist.GetBlacklistedCount
    simp only
    rw [hent]

/-! ## Token validation -/

/-- When parsing succeeds, `validateToken` rejects claims of another token type
or of another issuer. -/
theorem validateToken_error_of_mismatch (tm : TokenManager) (lib : JWTLib) (now : Time)
    (tokenString : String) (expectedType : TokenType) (secret : List Nat)
    (token : ParsedToken) (claims : Claims)
    (hparse : lib.parse tokenString (keyFunc secret) now = .ok token)
    (hclaims : token.Claims = some claims)
    (hne : claims.TokenType ≠ expectedType ∨ claims.Issuer ≠ tm.issuer) :
    ∃ err, tm.validateToken lib now tokenString expectedType secret = .error err := by
  unfold TokenManager.validateToken
  rw [hparse]
  simp only [hclaims]
  by_cases hv : (!token.Valid) = true
  · rw [if_pos hv]
    exact ⟨_, rfl⟩
  · rw [if_neg hv]
    by_cases ht : claims.TokenType ≠ expectedType
    · rw [if_pos ht]
      exact ⟨_, rfl⟩
    · rw [if_neg ht]
      have hi : claims.Issuer ≠ tm.issuer := by
        rcases hne with h | h
        · exact absurd h ht
        · exact h
      rw [if_pos hi]
      exact ⟨_, rfl⟩

/-- For a library that keeps the signed token type, `validateToken` rejects every
token string that was signed for claims of another type than the expected one. -/
theorem validateToken_error_of_signed (tm : TokenManager) (lib : JWTLib)
    (hlib : lib.KeepsTokenType) (now : Time) (c : Claims) (signSecret : List Nat)
    (tokenString : String) (expectedType : TokenType) (secret : List Nat)
    (hsign : lib.sign c signSecret = .ok tokenString) (hne : c.TokenType ≠ expectedType) :
    ∃ err, tm.validateToken lib now tokenString expectedType secret = .error err := by
  cases hparse : lib.parse tokenString (keyFunc secret) now with
  | error e =>
    unfold TokenManager.validateToken
    rw [hparse]
    exact ⟨_, rfl⟩
  | ok token =>
    cases hclaims : token.Claims with
    | none =>
      unfold TokenManager.validateToken
      rw [hparse]
      simp only [hclaims]
      exact ⟨_, rfl⟩
    | some c2 =>
      have hty : c2.TokenType = c.TokenType :=
        hlib c signSecret tokenString (keyFunc secret) now token c2 hsign hparse hclaims
      exact validateToken_error_of_mismatch tm lib now tokenString expectedType secret token c2
        hparse hclaims (Or.inl (by rw [hty]; exact hne))

/-- A token string returned by `generateToken` was signed, with the given
secret, for claims of the requested token type. -/
theorem generateToken_signed (tm : TokenManager) (lib : JWTLib) (now : Time)
    (rnd : Except String (List Nat)) (userID : UUID) (email : String)
    (tokenType : TokenType) (secret : List Nat) (ttl : Int) (tokenString : String)
    (h : tm.generateToken lib now rnd userID email tokenType secret ttl = .ok tokenString) :
    ∃ c : Claims, c.TokenType = tokenType ∧ lib.sign c secret = .ok tokenString := by
  unfold TokenManager.generateToken at h
  cases hj : generateJTI rnd with
  | error e => rw [hj] at h; cases h
  | ok jti =>
    rw [hj] at h
    simp only at h
    refine ⟨{ UserID := userID, Email := email, TokenType := tokenType, Issuer := tm.issuer,
              Subject := uuidString userID, Audience := ["chainforge"], ExpiresAt := now + ttl,
              NotBefore := now, IssuedAt := now, ID := jti }, rfl, ?_⟩
    split at h
    · cases h
    · rename_i tok hs
      cases h
      exact hs

/-- The two token strings of a pair returned by `GenerateTokenPair` come from
`generateToken` with the access and the refresh type. -/
theorem generateTokenPair_parts (tm : TokenManager) (lib : JWTLib) (nowA nowR : Time)
    (rndA rndR : Except String (List Nat)) (userID : UUID) (email : String) (pair : TokenPair)
    (h : tm.GenerateTokenPair lib nowA nowR rndA rndR userID email = .ok pair) :
    tm.generateToken lib nowA rndA userID email AccessToken tm.accessSecret tm.accessTTL
        = .ok pair.AccessToken ∧
    tm.generateToken lib nowR rndR userID email RefreshToken tm.refreshSecret tm.refreshTTL
        = .ok pair.RefreshToken := by
  unfold TokenManager.GenerateTokenPair at h
  cases hA : tm.generateToken lib nowA rndA userID email AccessToken tm.accessSecret
      tm.accessTTL with
  | error e => rw [hA] at h; cases h
  | ok a =>
    rw [hA] at h
    cases hR : tm.generateToken lib nowR rndR userID email RefreshToken tm.refreshSecret
        tm.refreshTTL with
    | error e => rw [hR] at h; cases h
    | ok r =>
      rw [hR] at h
      cases h
      exact ⟨rfl, rfl⟩

/-- C10: `validateToken` returns an error whenever the parsed claims carry a
token type other than the expected one or an issuer other than the manager's;
hence, for a library that keeps the signed token type, `ValidateAccessToken`
rejects every refresh token issued by `GenerateTokenPair` and
`ValidateRefreshToken` rejects every access token, whatever the two secrets are
(equal secrets included). -/
theorem C10_validateToken_rejects (tm : TokenManager) (lib : JWTLib) :
    (∀ (now : Time) (tokenString : String) (expectedType : TokenType) (secret : List Nat)
        (token : ParsedToken) (claims : Claims),
        lib.parse tokenString (keyFunc secret) now = .ok token →
        token.Claims = some claims →
        (claims.TokenType ≠ expectedType ∨ claims.Issuer ≠ tm.issuer) →
        ∃ err, tm.validateToken lib now tokenString expectedType secret = .error err) ∧
    (lib.KeepsTokenType →
      ∀ (nowA nowR : Time) (rndA rndR : Except String (List Nat)) (userID : UUID)
        (email : String) (pair : TokenPair) (now : Time),
        tm.GenerateTokenPair lib nowA nowR rndA rndR userID email = .ok pair →
        (∃ err, tm.ValidateAccessToken lib now pair.RefreshToken = .error err) ∧
        (∃ err, tm.ValidateRefreshToken lib now pair.AccessToken = .error err)) := by
  refine ⟨?_, ?_⟩
  · intro now tokenString expectedType secret token claims hparse hclaims hne
    exact validateToken_error_of_mismatch tm lib now tokenString expectedType secret token
      claims hparse hclaims hne
  · intro hlib nowA nowR rndA rndR userID email pair now hgen
    obtain ⟨hA, hR⟩ := generateTokenPair_parts tm lib nowA nowR rndA rndR userID email pair hgen
    obtain ⟨cA, hcA, hsA⟩ := generateToken_signed tm lib nowA rndA userID email AccessToken
      tm.accessSecret tm.accessTTL pair.AccessToken hA
    obtain ⟨cR, hcR, hsR⟩ := generateToken_signed tm lib nowR rndR userID email RefreshToken
      tm.refreshSecret tm.refreshTTL pair.RefreshToken hR
    constructor
    · exact validateToken_error_of_signed tm lib hlib now cR tm.refreshSecret pair.RefreshToken
        AccessToken tm.accessSecret hsR (by rw [hcR]; decide)
    · exact validateToken_error_of_signed tm lib hlib now cA tm.accessSecret pair.AccessToken
        RefreshToken tm.refreshSecret hsA (by rw [hcA]; decide)

/-- The stand-in library keeps the signed token type. -/
theorem toyLib_keepsTokenType : toyLib.KeepsTokenType := by
  intro c secret tok kf now t c2 hsign hparse hclaims
  simp only [toyLib] at hsign hparse
  cases hsign
  cases hk : kf true with
  | error e => rw [hk] at hparse; cases hparse
  | ok s =>
    rw [hk] at hparse
    cases hparse
    cases hclaims
    rfl

/-- C10 instance: with equal secrets, the pair issued by the stand-in library
is ("access", "refresh"); the refresh token is rejected as an access token and
the access token is rejected as a refresh token; a manager with another issuer
rejects the access token although its type is the expected one. -/
theorem C10_validateToken_witness :
    (toyLib.KeepsTokenType ∧
      sameSecretManager.GenerateTokenPair toyLib 0 0 (.ok [0]) (.ok [1]) 1 "a@b.c"
        = .ok { AccessToken := "access", RefreshToken := "refresh", ExpiresIn := 900,
                TokenType := "Bearer" } ∧
      (∃ err, sameSecretManager.ValidateAccessToken toyLib 5 "refresh" = .error err) ∧
      (∃ err, sameSecretManager.ValidateRefreshToken toyLib 5 "access" = .error err)) ∧
    (toyLib.parse "access" (keyFunc [1, 2, 3]) 5 = .ok (toyParsed "access") ∧
      (toyParsed "access").Claims = some (toyClaims "access") ∧
      ((toyClaims "access").TokenType ≠ AccessToken ∨
        (toyClaims "access").Issuer ≠ otherIssuerManager.issuer) ∧
      (∃ err, otherIssuerManager.validateToken toyLib 5 "access" AccessToken [1, 2, 3]
        = .error err)) :=
  ⟨⟨toyLib_keepsTokenType, rfl,
      (C10_validateToken_rejects sameSecretManager toyLib).2 toyLib_keepsTokenType 0 0
        (.ok [0]) (.ok [1]) 1 "a@b.c"
        { AccessToken := "access", RefreshToken := "refresh", ExpiresIn := 900,
          TokenType := "Bearer" } 5 rfl⟩,
    ⟨rfl, rfl, Or.inr (by decide),
      (C10_validateToken_rejects otherIssuerManager toyLib).1 5 "access" AccessToken [1, 2, 3]
        (toyParsed "access") (toyClaims "access") rfl rfl (Or.inr (by decide))⟩⟩

/-! ## Penalty over successive missed periods -/

/-- A row with nothing achieved and a non-negative target carries its whole
target over. -/
theorem carryOver_of_zero_current (gp : GroupGoalProgress) (hC : gp.CurrentAmount = 0)
    (hT : 0 ≤ gp.TargetAmount) : gp.CalculatePenaltyCarryOver = gp.TargetAmount := by
  unfold GroupGoalProgress.CalculatePenaltyCarryOver
  simp only [hC, sub_zero]
  split_ifs with h
  · linarith
  · rfl

/-- With a non-negative base target and a non-negative starting target, every
later row of `missedRows` has current amount 0, penalty `T + k * b` and target
`T + (k + 1) * b`. -/
theorem missedRows_succ (newID period : Nat → UUID) (now : Nat → Time) (b : ℚ)
    (start : GroupGoalProgress) (hb : 0 ≤ b) (hT : 0 ≤ start.TargetAmount)
    (hC : start.CurrentAmount = 0) :
    ∀ k : Nat,
      (missedRows newID period now b start (k + 1)).CurrentAmount = 0 ∧
      (missedRows newID period now b start (k + 1)).PenaltyCarryOver
        = start.TargetAmount + k * b ∧
      (missedRows newID period now b start (k + 1)).TargetAmount
        = start.TargetAmount + (k + 1) * b
  | 0 => by
    have hc : start.CalculatePenaltyCarryOver = start.TargetAmount :=
      carryOver_of_zero_current start hC hT
    simp [missedRows, NewGroupGoalProgress, hc]
    ring
  | k + 1 => by
    obtain ⟨ihC, _, ihT⟩ := missedRows_succ newID period now b start hb hT hC k
    have hpos : 0 ≤ start.TargetAmount + ((k : ℚ) + 1) * b := by positivity
    have hc : (missedRows newID period now b start (k + 1)).CalculatePenaltyCarryOver
        = start.TargetAmount + ((k : ℚ) + 1) * b := by
      rw [carryOver_of_zero_current _ ihC (by rw [ihT]; exact hpos), ihT]
    have hstep : missedRows newID period now b start (k + 1 + 1)
        = NewGroupGoalProgress (newID (k + 1)) (now (k + 1)) (now (k + 1)) (period (k + 1))
            (missedRows newID period now b start (k + 1)).UserID b
            (missedRows newID period now b start (k + 1)).CalculatePenaltyCarryOver := rfl
    rw [hstep, hc]
    simp only [NewGroupGoalProgress]
    refine ⟨trivial, ?_, ?_⟩
    · push_cast
      ring
    · push_cast
      ring

/-! ## Subscription limits -/

/-- C16: on the premium plan `CanCreatePersonalGoal(n)` is true for every `n`;
on every other plan it is true if and only if `n < 3`. -/
theorem C16_canCreatePersonalGoal (s : Subscription) (n : Int) :
    (s.Plan = PlanPremium → s.CanCreatePersonalGoal n = true) ∧
    (s.Plan ≠ PlanPremium → (s.CanCreatePersonalGoal n = true ↔ n < 3)) := by
  constructor
  · intro h
    simp [Subscription.CanCreatePersonalGoal, Subscription.GetFeatures, h]
  · intro h
    simp [Subscription.CanCreatePersonalGoal, Subscription.GetFeatures, h]

/-- C16 instances: premium with 1000 goals may create another one; the free
plan may create one with 2 goals and may not with 3. -/
theorem C16_canCreatePersonalGoal_witness :
    ((subscriptionWith PlanPremium).Plan = PlanPremium ∧
      (subscriptionWith PlanPremium).CanCreatePersonalGoal 1000 = true) ∧
    ((subscriptionWith PlanFree).Plan ≠ PlanPremium ∧
      ((subscriptionWith PlanFree).CanCreatePersonalGoal 2 = true ↔ (2 : Int) < 3) ∧
      ((subscriptionWith PlanFree).CanCreatePersonalGoal 3 = true ↔ (3 : Int) < 3)) :=
  ⟨⟨rfl, (C16_canCreatePersonalGoal (subscriptionWith PlanPremium) 1000).1 rfl⟩,
    ⟨by decide, (C16_canCreatePersonalGoal (subscriptionWith PlanFree) 2).2 (by decide),
      (C16_canCreatePersonalGoal (subscriptionWith PlanFree) 3).2 (by decide)⟩⟩

/-! ## Configuration validation -/

/-- Function `contains` answers list membership. -/
theorem contains_iff (l : List String) (item : String) : contains l item = true ↔ item ∈ l := by
  induction l with
  | nil => simp [contains]
  | cons s rest ih =>
    unfold contains
    by_cases h : s = item
    · simp [h]
    · have h2 : ¬ item = s := fun e => h e.symm
      simp [h, h2, ih]

/-- C15: `Validate` returns nil exactly when the three secrets are non-empty,
the environment is development, staging or production, the port is between 1
and 65535, the storage provider is local or s3, and, in production, the Stripe
secret key and webhook secret are non-empty. -/
theorem C15_validate_nil_iff (c : Config) :
    c.Validate = none ↔
      (c.Database.EncryptionKey ≠ "" ∧ c.Auth.JWTSecret ≠ "" ∧ c.Auth.RefreshSecret ≠ "" ∧
        (c.Server.Environment = "development" ∨ c.Server.Environment = "staging" ∨
          c.Server.Environment = "production") ∧
        (1 ≤ c.Server.Port ∧ c.Server.Port ≤ 65535) ∧
        (c.Storage.Provider = "local" ∨ c.Storage.Provider = "s3") ∧
        (c.Server.Environment = "production" →
          c.Stripe.SecretKey ≠ "" ∧ c.Stripe.WebhookSecret ≠ "")) := by
  have henv : contains ["development", "staging", "production"] c.Server.Environment = true ↔
      (c.Server.Environment = "development" ∨ c.Server.Environment = "staging" ∨
          c.Server.Environment = "production") := by
    rw [contains_iff]
    simp
  have hprov : contains ["local", "s3"] c.Storage.Provider = true ↔
      (c.Storage.Provider = "local" ∨ c.Storage.Provider = "s3") := by
    rw [contains_iff]
    simp
  unfold Config.Validate
  by_cases h1 : c.Database.EncryptionKey = ""
  · simp [h1]
  by_cases h2 : c.Auth.JWTSecret = ""
  · simp [h1, h2]
  by_cases h3 : c.Auth.RefreshSecret = ""
  · simp [h1, h2, h3]
  simp only [h1, h2, h3, if_false, ne_eq, not_false_eq_true, true_and]
  by_cases h4 : contains ["development", "staging", "production"] c.Server.Environment = true
  swap
  · have h4n : ¬ (c.Server.Environment = "development" ∨ c.Server.Environment = "staging" ∨
          c.Server.Environment = "production") := fun h => h4 (henv.mpr h)
    simp [h4, h4n]
  have h4e := henv.mp h4
  simp only [h4, Bool.not_true, Bool.false_eq_true, if_false, h4e, true_and]
  by_cases h5 : c.Server.Port < 1 ∨ c.Server.Port > 65535
  · have h5n : ¬ (1 ≤ c.Server.Port ∧ c.Server.Port ≤ 65535) := by
      intro h
      rcases h5 with h5 | h5 <;> omega
    simp [h5, h5n]
  have h5p : 1 ≤ c.Server.Port ∧ c.Server.Port ≤ 65535 := by
    constructor
    · by_contra hc
      exact h5 (Or.inl (by omega))
    · by_contra hc
      exact h5 (Or.inr (by omega))
  simp only [h5, if_false, h5p, and_self, true_and]
  by_cases h6 : contains ["local", "s3"] c.Storage.Provider = true
  swap
  · have h6n : ¬ (c.Storage.Provider = "local" ∨ c.Storage.Provider = "s3") :=
      fun h => h6 (hprov.mpr h)
    simp [h6, h6n]
  have h6e := hprov.mp h6
  simp only [h6, Bool.not_true, Bool.false_eq_true, if_false, h6e, true_and]
  by_cases h7 : c.Server.Environment = "production"
  · by_cases h8 : c.Stripe.SecretKey = ""
    · simp [h7, h8]
    · by_cases h9 : c.Stripe.WebhookSecret = ""
      · simp [h7, h8, h9]
      · simp [h7, h8, h9]
  · simp [h7]

/-- C15 instances: a production configuration with both Stripe secrets
validates; without the Stripe secret key it does not; a development
configuration validates without them. -/
theorem C15_validate_witness :
    (configWith "production" "sk" "wh").Validate = none ∧
    (configWith "production" "" "wh").Validate ≠ none ∧
    (configWith "development" "" "").Validate = none :=
  ⟨(C15_validate_nil_iff (configWith "production" "sk" "wh")).mpr
      ⟨by decide, by decide, by decide, by decide, by decide, by decide,
        fun _ => ⟨by decide, by decide⟩⟩,
    fun h => ((C15_validate_nil_iff (configWith "production" "" "wh")).mp h).2.2.2.2.2.2
      rfl |>.1 rfl,
    (C15_validate_nil_iff (configWith "development" "" "")).mpr
      ⟨by decide, by decide, by decide, by decide, by decide, by decide,
        fun h => absurd h (by decide)⟩⟩

/-! ## Password length rules -/

/-- C11: for a password shorter than 8 bytes or longer than 128 bytes,
`HashPassword` returns the empty string and an error, and this result does not
depend on the hashing function. -/
theorem C11_hashPassword_rejects (bcryptGenerate : String → Int → Except String String)
    (password : String)
    (h : len password < MinPasswordLength ∨ len password > MaxPasswordLength) :
    (HashPassword bcryptGenerate password).1 = "" ∧
    (HashPassword bcryptGenerate password).2 ≠ none ∧
    (∀ other : String → Int → Except String String,
      HashPassword other password = HashPassword bcryptGenerate password) := by
  unfold HashPassword
  by_cases h1 : len password < MinPasswordLength
  · simp [h1]
  · have h2 : len password > MaxPasswordLength := by
      rcases h with h | h
      · exact absurd h h1
      · exact h
    simp [h1, h2]

set_option maxRecDepth 8000 in
/-- C11 instances: a 5-byte password and a 129-byte password are rejected. -/
theorem C11_hashPassword_witness :
    ((len "short" < MinPasswordLength ∨ len "short" > MaxPasswordLength) ∧
      (HashPassword toyBcrypt "short").1 = "") ∧
    ((len longPassword < MinPasswordLength ∨ len longPassword > MaxPasswordLength) ∧
      (HashPassword toyBcrypt longPassword).1 = "") :=
  ⟨⟨Or.inl (by decide), (C11_hashPassword_rejects toyBcrypt "short" (Or.inl (by decide))).1⟩,
    ⟨Or.inr (by decide),
      (C11_hashPassword_rejects toyBcrypt longPassword (Or.inr (by decide))).1⟩⟩

/-- C12: `ValidatePassword(p).IsValid` is true exactly when `IsPasswordValid(p)`
is true, which is when `8 <= len(p) <= 128`, and exactly when
`ValidatePassword(p).Errors` is empty. -/
theorem C12_validatePassword_iff (u : UnicodeLib) (password : String) :
    ((ValidatePassword u password).IsValid = true ↔ IsPasswordValid password = true) ∧
    (IsPasswordValid password = true ↔ (8 ≤ len password ∧ len password ≤ 128)) ∧
    ((ValidatePassword u password).IsValid = true ↔ (ValidatePassword u password).Errors = [])
    := by
  have hvalid : IsPasswordValid password = true ↔ (8 ≤ len password ∧ len password ≤ 128) := by
    simp [IsPasswordValid, MinPasswordLength, MaxPasswordLength]
  have hres : ((ValidatePassword u password).IsValid = true ↔
        (8 ≤ len password ∧ len password ≤ 128)) ∧
      ((ValidatePassword u password).Errors = [] ↔
        (8 ≤ len password ∧ len password ≤ 128)) := by
    unfold ValidatePassword
    simp only [MinPasswordLength, MaxPasswordLength]
    by_cases h1 : len password < 8
    · have h2 : ¬ len password > 128 := by omega
      have h3 : ¬ (8 ≤ len password ∧ len password ≤ 128) := by omega
      simp only [h1, h2, if_true, if_false]
      constructor
      · split_ifs <;> simp [h3]
      · split_ifs <;> simp [h3]
    · by_cases h2 : len password > 128
      · have h3 : ¬ (8 ≤ len password ∧ len password ≤ 128) := by omega
        simp [h1, h2, h3]
      · have h3 : 8 ≤ len password ∧ len password ≤ 128 := by omega
        simp only [h1, h2, if_false]
        constructor
        · split_ifs <;> simp [h3]
        · split_ifs <;> simp [h3]
  refine ⟨?_, hvalid, ?_⟩
  · rw [hres.1, hvalid]
  · rw [hres.1, hres.2]

/-! ## Random passwords -/

/-- A value returned by `randomInt` lies in `[0, max)`. -/
theorem randomInt_range (read : Except String RandBytes) (max r : Int)
    (h : randomInt read max = .ok r) : 0 ≤ r ∧ r < max := by
  unfold randomInt at h
  by_cases hmax : max ≤ 0
  · rw [if_pos hmax] at h
    cases h
  · rw [if_neg hmax] at h
    cases read with
    | error e => cases h
    | ok bytes =>
      simp only at h
      have hnn : ¬ (((((bytes.b0.val <<< 24) ||| (bytes.b1.val <<< 16) |||
          (bytes.b2.val <<< 8) ||| bytes.b3.val : Nat) : Int)) < 0) :=
        not_lt.mpr (Int.ofNat_nonneg _)
      rw [if_neg hnn] at h
      cases h
      exact ⟨Int.tmod_nonneg _ (Int.ofNat_nonneg _), Int.tmod_lt_of_pos _ (not_le.mp hmax)⟩

/-- On a positive bound, `randomInt` succeeds whenever the read succeeds. -/
theorem randomInt_ok (bytes : RandBytes) (max : Int) (hmax : 0 < max) :
    ∃ r, randomInt (.ok bytes) max = .ok r := by
  unfold randomInt
  rw [if_neg (not_le.mpr hmax)]
  exact ⟨_, rfl⟩

/-- A successful index expression returns the element at that index. -/
theorem byteAt_ok (s : List Char) (i : Int) (c : Char) (h : byteAt s i = .ok c) :
    0 ≤ i ∧ s[i.toNat]? = some c := by
  unfold byteAt at h
  by_cases hi : i < 0
  · rw [if_pos hi] at h
    cases h
  · rw [if_neg hi] at h
    cases hs : s[i.toNat]? with
    | none => rw [hs] at h; cases h
    | some d =>
      rw [hs] at h
      cases h
      exact ⟨not_lt.mp hi, rfl⟩

/-- An index expression within range does not panic. -/
theorem byteAt_in_range (s : List Char) (i : Int) (h0 : 0 ≤ i) (h1 : i < s.length) :
    ∃ c, byteAt s i = .ok c := by
  unfold byteAt
  rw [if_neg (not_lt.mpr h0)]
  have hlt : i.toNat < s.length := (Int.toNat_lt h0).mpr h1
  rw [List.getElem?_eq_getElem hlt]
  exact ⟨_, rfl⟩

/-- After the fill loop every position holds a character of `allChars`. -/
theorem fillLoop_spec (src : RandSource) (chars : String) :
    ∀ (n i k : Nat) (password r : List Char) (k2 : Nat),
      fillLoop src chars n i k password = .ok (r, k2) →
      password.length = i + n →
      (∀ idx, idx < i → ∃ c, password[idx]? = some c ∧ c ∈ chars.toList) →
      r.length = i + n ∧ ∀ c ∈ r, c ∈ chars.toList
  | 0, i, k, password, r, k2, h, hlen, hpre => by
    simp only [fillLoop] at h
    cases h
    refine ⟨hlen, ?_⟩
    intro c hc
    obtain ⟨idx, hidx⟩ := List.mem_iff_getElem?.mp hc
    have hlt : idx < password.length := (List.getElem?_eq_some.mp hidx).1
    obtain ⟨d, hd, hdm⟩ := hpre idx (by omega)
    rw [hidx] at hd
    cases hd
    exact hdm
  | n + 1, i, k, password, r, k2, h, hlen, hpre => by
    simp only [fillLoop] at h
    cases hr : randomInt (src k) (len chars) with
    | error e => rw [hr] at h; cases h
    | ok randomIndex =>
      rw [hr] at h
      simp only at h
      cases hb : byteAt chars.toList randomIndex with
      | error e => rw [hb] at h; cases h
      | ok c =>
        rw [hb] at h
        simp only at h
        have hc : c ∈ chars.toList := List.getElem?_mem (byteAt_ok _ _ _ hb).2
        have := fillLoop_spec src chars n (i + 1) (k + 1) (password.set i c) r k2 h
          (by rw [List.length_set]; omega)
          (by
            intro idx hidx
            by_cases he : idx = i
            · subst he
              exact ⟨c, List.getElem?_set_self (by omega), hc⟩
            · rw [List.getElem?_set_ne (fun e => he e.symm)]
              exact hpre idx (by omega))
        refine ⟨by omega, this.2⟩

/-- The variety loop keeps the length, writes at position `i + t` a character of
the `t`-th set, leaves the positions before `i` alone, and only ever writes
characters of the sets. -/
theorem varietyLoop_spec (src : RandSource) (length : Int) :
    ∀ (sets : List String) (i k : Nat) (password r : List Char) (k2 : Nat),
      varietyLoop src length sets i k password = .ok (r, k2) →
      ((i + sets.length : Nat) : Int) ≤ length →
      i + sets.length ≤ password.length →
      r.length = password.length ∧
      (∀ c ∈ r, c ∈ password ∨ ∃ s ∈ sets, c ∈ s.toList) ∧
      (∀ idx, idx < i → r[idx]? = password[idx]?) ∧
      (∀ t s, sets[t]? = some s → ∃ c, r[i + t]? = some c ∧ c ∈ s.toList)
  | [], i, k, password, r, k2, h, _, _ => by
    simp only [varietyLoop] at h
    cases h
    refine ⟨rfl, fun c hc => Or.inl hc, fun _ _ => rfl, ?_⟩
    intro t s hs
    simp at hs
  | set :: rest, i, k, password, r, k2, h, hL, hlen => by
    simp only [varietyLoop] at h
    simp only [List.length_cons] at hL hlen
    have hi : (i : Int) < length := by omega
    rw [if_pos hi] at h
    cases hr : randomInt (src k) (len set) with
    | error e => rw [hr] at h; cases h
    | ok randomIndex =>
      rw [hr] at h
      simp only at h
      cases hb : byteAt set.toList randomIndex with
      | error e => rw [hb] at h; cases h
      | ok c =>
        rw [hb] at h
        simp only at h
        have hc : c ∈ set.toList := List.getElem?_mem (byteAt_ok _ _ _ hb).2
        obtain ⟨h1, h2, h3, h4⟩ := varietyLoop_spec src length rest (i + 1) (k + 1)
          (password.set i c) r k2 h (by omega) (by rw [List.length_set]; omega)
        rw [List.length_set] at h1
        refine ⟨h1, ?_, ?_, ?_⟩
        · intro d hd
          rcases h2 d hd with hm | ⟨s, hs, hds⟩
          · rcases List.mem_or_eq_of_mem_set hm with hm2 | heq
            · exact Or.inl hm2
            · exact Or.inr ⟨set, List.mem_cons_self _ _, heq ▸ hc⟩
          · exact Or.inr ⟨s, List.mem_cons_of_mem _ hs, hds⟩
        · intro idx hidx
          rw [h3 idx (by omega), List.getElem?_set_ne (by omega)]
        · intro t s hs
          cases t with
          | zero =>
            simp only [List.getElem?_cons_zero, Option.some.injEq] at hs
            subst hs
            refine ⟨c, ?_, hc⟩
            rw [Nat.add_zero, h3 i (by omega)]
            exact List.getElem?_set_self (by omega)
          | succ t =>
            simp only [List.getElem?_cons_succ] at hs
            obtain ⟨d, hd, hdm⟩ := h4 t s hs
            refine ⟨d, ?_, hdm⟩
            rw [← hd]
            congr 1
            omega

/-- Exchanging two positions of a slice keeps its elements. -/
theorem mem_swap_iff (password : List Char) (i j : Nat) (ci cj : Char)
    (hi : password[i]? = some ci) (hj : password[j]? = some cj) (c : Char) :
    c ∈ (password.set i cj).set j ci ↔ c ∈ password := by
  have hil : i < password.length := (List.getElem?_eq_some.mp hi).1
  have hjl : j < password.length := (List.getElem?_eq_some.mp hj).1
  constructor
  · intro h
    rcases List.mem_or_eq_of_mem_set h with h1 | h1
    · rcases List.mem_or_eq_of_mem_set h1 with h2 | h2
      · exact h2
      · rw [h2]
        exact List.getElem?_mem hj
    · rw [h1]
      exact List.getElem?_mem hi
  · intro h
    obtain ⟨idx, hidx⟩ := List.mem_iff_getElem?.mp h
    by_cases hxj : idx = j
    · subst hxj
      rw [hj] at hidx
      cases hidx
      by_cases hij : i = idx
      · subst hij
        rw [hi] at hj
        cases hj
        apply List.getElem?_mem (n := i)
        exact List.getElem?_set_self (by rw [List.length_set]; exact hil)
      · apply List.getElem?_mem (n := i)
        rw [List.getElem?_set_ne (fun e => hij e.symm)]
        exact List.getElem?_set_self hil
    · by_cases hxi : idx = i
      · subst hxi
        rw [hi] at hidx
        cases hidx
        apply List.getElem?_mem (n := j)
        exact List.getElem?_set_self (by rw [List.length_set]; exact hjl)
      · apply List.getElem?_mem (n := idx)
        rw [List.getElem?_set_ne (fun e => hxj e.symm),
          List.getElem?_set_ne (fun e => hxi e.symm)]
        exact hidx

/-- The shuffle loop keeps the length and the elements of the slice. -/
theorem shuffleLoop_spec (src : RandSource) :
    ∀ (n i k : Nat) (password r : List Char) (k2 : Nat),
      shuffleLoop src n i k password = .ok (r, k2) →
      r.length = password.length ∧ ∀ c, c ∈ r ↔ c ∈ password
  | 0, i, k, password, r, k2, h => by
    simp only [shuffleLoop] at h
    cases h
    exact ⟨rfl, fun _ => Iff.rfl⟩
  | n + 1, i, k, password, r, k2, h => by
    simp only [shuffleLoop] at h
    cases hr : randomInt (src k) (password.length : Int) with
    | error e => rw [hr] at h; cases h
    | ok j =>
      rw [hr] at h
      simp only at h
      cases hbj : byteAt password j with
      | error e => rw [hbj] at h; cases h
      | ok cj =>
        rw [hbj] at h
        simp only at h
        cases hbi : byteAt password (i : Int) with
        | error e => rw [hbi] at h; cases h
        | ok ci =>
          rw [hbi] at h
          simp only at h
          obtain ⟨h1, h2⟩ := shuffleLoop_spec src n (i + 1) (k + 1) _ r k2 h
          have hi := (byteAt_ok _ _ _ hbi).2
          have hj := (byteAt_ok _ _ _ hbj).2
          rw [Int.toNat_ofNat] at hi
          refine ⟨by rw [h1, List.length_set, List.length_set], ?_⟩
          intro c
          rw [h2 c]
          exact mem_swap_iff password i j.toNat ci cj hi hj c

/-- Byte length of a string whose characters are all encoded on one byte. -/
theorem utf8ByteSize_go_of_ascii :
    ∀ (l : List Char), (∀ c ∈ l, c.utf8Size = 1) → String.utf8ByteSize.go l = l.length
  | [], _ => rfl
  | c :: cs, h => by
    have hc : c.utf8Size = 1 := h c (List.mem_cons_self _ _)
    have hcs := utf8ByteSize_go_of_ascii cs (fun d hd => h d (List.mem_cons_of_mem _ hd))
    simp only [String.utf8ByteSize.go, hc, hcs, List.length_cons]

set_option maxRecDepth 8000 in
/-- Every character of `allChars` is encoded on one byte. -/
theorem allChars_ascii : ∀ c ∈ allChars.toList, c.utf8Size = 1 := by
  decide

set_option maxRecDepth 8000 in
/-- The four character sets are parts of `allChars`. -/
theorem sets_subset_allChars :
    ∀ s ∈ [lowercase, uppercase, numbers, special], ∀ c ∈ s.toList, c ∈ allChars.toList := by
  decide

/-- The clamped length used by `GenerateSecurePassword`. -/
theorem clamp_length (length : Int) :
    ∃ L : Int,
      L = (if (if length < MinPasswordLength then MinPasswordLength else length)
              > MaxPasswordLength then MaxPasswordLength
            else (if length < MinPasswordLength then MinPasswordLength else length)) ∧
      8 ≤ L ∧ L ≤ 128 ∧ L = min 128 (max 8 length) := by
  refine ⟨_, rfl, ?_, ?_, ?_⟩ <;>
    simp only [MinPasswordLength, MaxPasswordLength] <;>
    split_ifs <;> omega

/-- What a successful run of `GenerateSecurePassword` returns: a string of
exactly the clamped number of characters, all from `allChars`, with at least
one character of each of the four sets. -/
theorem generateSecurePassword_spec (src : RandSource) (length : Int) (s : String)
    (h : GenerateSecurePassword src length = .ok s) :
    ∃ password : List Char, s = String.mk password ∧
      (password.length : Int) = min 128 (max 8 length) ∧
      (∀ c ∈ password, c ∈ allChars.toList) ∧
      (∃ c ∈ password, c ∈ lowercase.toList) ∧
      (∃ c ∈ password, c ∈ uppercase.toList) ∧
      (∃ c ∈ password, c ∈ numbers.toList) ∧
      (∃ c ∈ password, c ∈ special.toList) := by
  obtain ⟨L, hLdef, hL8, hL128, hLmin⟩ := clamp_length length
  simp only [GenerateSecurePassword] at h
  rw [← hLdef] at h
  cases hfill : fillLoop src allChars (List.replicate L.toNat (Char.ofNat 0)).length 0 0
      (List.replicate L.toNat (Char.ofNat 0)) with
  | error e => rw [hfill] at h; cases h
  | ok p1 =>
    obtain ⟨pw1, k1⟩ := p1
    rw [hfill] at h
    simp only at h
    rw [if_pos (by omega)] at h
    obtain ⟨hlen1, hall1⟩ := fillLoop_spec src allChars _ 0 0 _ pw1 k1 hfill (by simp)
      (fun idx hidx => absurd hidx (Nat.not_lt_zero idx))
    rw [List.length_replicate, Nat.zero_add] at hlen1
    have hL4 : 8 ≤ L.toNat := by omega
    cases hvar : varietyLoop src L [lowercase, uppercase, numbers, special] 0 k1 pw1 with
    | error e => rw [hvar] at h; cases h
    | ok p2 =>
      obtain ⟨pw2, k2⟩ := p2
      rw [hvar] at h
      simp only at h
      obtain ⟨hlen2, hmem2, _, hpos2⟩ := varietyLoop_spec src L _ 0 k1 pw1 pw2 k2 hvar
        (by simp only [List.length_cons, List.length_nil]; omega)
        (by simp only [List.length_cons, List.length_nil]; omega)
      cases hsh : shuffleLoop src pw2.length 0 k2 pw2 with
      | error e => rw [hsh] at h; cases h
      | ok p3 =>
        obtain ⟨pw3, k3⟩ := p3
        rw [hsh] at h
        simp only at h
        obtain ⟨hlen3, hmem3⟩ := shuffleLoop_spec src _ 0 k2 pw2 pw3 k3 hsh
        have hs : s = String.mk pw3 := by
          cases h
          rfl
        have hclass : ∀ (t : Nat) (chars : String),
            [lowercase, uppercase, numbers, special][t]? = some chars →
            ∃ c ∈ pw3, c ∈ chars.toList := by
          intro t chars ht
          obtain ⟨c, hc, hcs⟩ := hpos2 t chars ht
          exact ⟨c, (hmem3 c).mpr (List.getElem?_mem hc), hcs⟩
        refine ⟨pw3, hs, ?_, ?_, hclass 0 _ rfl, hclass 1 _ rfl, hclass 2 _ rfl,
          hclass 3 _ rfl⟩
        · rw [hlen3, hlen2, hlen1, ← hLmin]
          exact Int.toNat_of_nonneg (by omega)
        · intro c hc
          rcases hmem2 c ((hmem3 c).mp hc) with h1 | ⟨chars, hset, hcs⟩
          · exact hall1 c h1
          · exact sets_subset_allChars chars hset c hcs

/-- C13: a password returned by `GenerateSecurePassword` contains at least one
lowercase letter, one uppercase letter, one digit and one character of the
special set, and each of its characters belongs to the combined alphabet of 88
characters. -/
theorem C13_generated_variety (src : RandSource) (length : Int) (s : String)
    (h : GenerateSecurePassword src length = .ok s) :
    (∃ c ∈ s.toList, c ∈ lowercase.toList) ∧
    (∃ c ∈ s.toList, c ∈ uppercase.toList) ∧
    (∃ c ∈ s.toList, c ∈ numbers.toList) ∧
    (∃ c ∈ s.toList, c ∈ special.toList) ∧
    (∀ c ∈ s.toList, c ∈ allChars.toList) ∧
    allChars.toList.length = 88 ∧ len allChars = 88 := by
  obtain ⟨password, hs, _, hall, hl, hu, hn, hsp⟩ := generateSecurePassword_spec src length s h
  subst hs
  exact ⟨hl, hu, hn, hsp, hall, by decide, by decide⟩

/-- C14: a password returned by `GenerateSecurePassword` for the requested
`length` (any integer) has byte length exactly `min(128, max(8, length))` and
satisfies `IsPasswordValid`. -/
theorem C14_generated_length (src : RandSource) (length : Int) (s : String)
    (h : GenerateSecurePassword src length = .ok s) :
    len s = min 128 (max 8 length) ∧ IsPasswordValid s = true := by
  obtain ⟨password, hs, hlen, hall, _⟩ := generateSecurePassword_spec src length s h
  subst hs
  have hbytes : len (String.mk password) = (password.length : Int) := by
    unfold len String.utf8ByteSize
    simp only
    rw [utf8ByteSize_go_of_ascii password (fun c hc => allChars_ascii c (hall c hc))]
  have hl : len (String.mk password) = min 128 (max 8 length) := by rw [hbytes, hlen]
  refine ⟨hl, ?_⟩
  simp only [IsPasswordValid, MinPasswordLength, MaxPasswordLength, hl, Bool.and_eq_true,
    decide_eq_true_eq]
  omega

/-- The fill loop succeeds when every read succeeds and the alphabet is a
non-empty ASCII string. -/
theorem fillLoop_ok (src : RandSource) (chars : String)
    (hsrc : ∀ k, ∃ b, src k = .ok b) (hpos : 0 < len chars)
    (hascii : len chars = (chars.toList.length : Int)) :
    ∀ (n i k : Nat) (password : List Char), ∃ r, fillLoop src chars n i k password = .ok r
  | 0, i, k, password => ⟨_, rfl⟩
  | n + 1, i, k, password => by
    obtain ⟨b, hb⟩ := hsrc k
    obtain ⟨idx, hidx⟩ := randomInt_ok b (len chars) hpos
    obtain ⟨h0, h1⟩ := randomInt_range _ _ _ hidx
    obtain ⟨c, hc⟩ := byteAt_in_range chars.toList idx h0 (by rw [← hascii]; exact h1)
    obtain ⟨r, hr⟩ := fillLoop_ok src chars hsrc hpos hascii n (i + 1) (k + 1)
      (password.set i c)
    refine ⟨r, ?_⟩
    simp only [fillLoop, hb, hidx, hc]
    exact hr

/-- The variety loop succeeds when every read succeeds and every set is a
non-empty ASCII string. -/
theorem varietyLoop_ok (src : RandSource) (length : Int) (hsrc : ∀ k, ∃ b, src k = .ok b) :
    ∀ (sets : List String) (i k : Nat) (password : List Char),
      (∀ s ∈ sets, 0 < len s ∧ len s = (s.toList.length : Int)) →
      ∃ r, varietyLoop src length sets i k password = .ok r
  | [], i, k, password, _ => ⟨_, rfl⟩
  | chars :: rest, i, k, password, hsets => by
    have hrest : ∀ s ∈ rest, 0 < len s ∧ len s = (s.toList.length : Int) :=
      fun s hs => hsets s (List.mem_cons_of_mem _ hs)
    obtain ⟨hpos, hascii⟩ := hsets chars (List.mem_cons_self _ _)
    by_cases hi : (i : Int) < length
    · obtain ⟨b, hb⟩ := hsrc k
      obtain ⟨idx, hidx⟩ := randomInt_ok b (len chars) hpos
      obtain ⟨h0, h1⟩ := randomInt_range _ _ _ hidx
      obtain ⟨c, hc⟩ := byteAt_in_range chars.toList idx h0 (by rw [← hascii]; exact h1)
      obtain ⟨r, hr⟩ := varietyLoop_ok src length hsrc rest (i + 1) (k + 1)
        (password.set i c) hrest
      refine ⟨r, ?_⟩
      simp only [varietyLoop, hi, if_true, hb, hidx, hc]
      exact hr
    · obtain ⟨r, hr⟩ := varietyLoop_ok src length hsrc rest (i + 1) k password hrest
      refine ⟨r, ?_⟩
      simp only [varietyLoop, hi, if_false]
      exact hr

/-- The shuffle loop over the whole slice succeeds when every read succeeds. -/
theorem shuffleLoop_ok (src : RandSource) (hsrc : ∀ k, ∃ b, src k = .ok b) :
    ∀ (n i k : Nat) (password : List Char), i + n = password.length →
      ∃ r, shuffleLoop src n i k password = .ok r
  | 0, i, k, password, _ => ⟨_, rfl⟩
  | n + 1, i, k, password, hlen => by
    obtain ⟨b, hb⟩ := hsrc k
    have hpos : (0 : Int) < (password.length : Int) := by omega
    obtain ⟨j, hj⟩ := randomInt_ok b (password.length : Int) hpos
    obtain ⟨h0, h1⟩ := randomInt_range _ _ _ hj
    obtain ⟨cj, hcj⟩ := byteAt_in_range password j h0 h1
    obtain ⟨ci, hci⟩ := byteAt_in_range password (i : Int) (by omega) (by omega)
    obtain ⟨r, hr⟩ := shuffleLoop_ok src hsrc n (i + 1) (k + 1)
      ((password.set i cj).set j.toNat ci)
      (by rw [List.length_set, List.length_set]; omega)
    refine ⟨r, ?_⟩
    simp only [shuffleLoop, hb, hj, hcj, hci]
    exact hr

set_option maxRecDepth 8000 in
/-- The alphabets are non-empty ASCII strings. -/
theorem alphabets_ascii :
    ∀ s ∈ [allChars, lowercase, uppercase, numbers, special],
      0 < len s ∧ len s = (s.toList.length : Int) := by
  decide

/-- `GenerateSecurePassword` returns a password, for every requested length,
whenever no read of the random source fails (no index is out of range). -/
theorem generateSecurePassword_ok (src : RandSource) (length : Int)
    (hsrc : ∀ k, ∃ b, src k = .ok b) :
    ∃ s, GenerateSecurePassword src length = .ok s := by
  obtain ⟨L, hLdef, hL8, hL128, _⟩ := clamp_length length
  simp only [GenerateSecurePassword]
  rw [← hLdef]
  have hall := alphabets_ascii allChars (by simp)
  obtain ⟨⟨pw1, k1⟩, h1⟩ := fillLoop_ok src allChars hsrc hall.1 hall.2
    (List.replicate L.toNat (Char.ofNat 0)).length 0 0 (List.replicate L.toNat (Char.ofNat 0))
  rw [h1]
  simp only
  rw [if_pos (by omega)]
  obtain ⟨⟨pw2, k2⟩, h2⟩ := varietyLoop_ok src L hsrc [lowercase, uppercase, numbers, special]
    0 k1 pw1 (fun s hs => alphabets_ascii s (List.mem_cons_of_mem _ hs))
  rw [h2]
  simp only
  obtain ⟨⟨pw3, k3⟩, h3⟩ := shuffleLoop_ok src hsrc pw2.length 0 k2 pw2 (by omega)
  rw [h3]
  exact ⟨_, rfl⟩

/-- C13 instance: the password produced from the sample source for requested
length 3. -/
theorem C13_generated_variety_witness :
    GenerateSecurePassword sampleSource 3 = .ok "hO3#FMT0" ∧
    (∃ c ∈ "hO3#FMT0".toList, c ∈ lowercase.toList) ∧
    (∃ c ∈ "hO3#FMT0".toList, c ∈ uppercase.toList) ∧
    (∃ c ∈ "hO3#FMT0".toList, c ∈ numbers.toList) ∧
    (∃ c ∈ "hO3#FMT0".toList, c ∈ special.toList) ∧
    (∀ c ∈ "hO3#FMT0".toList, c ∈ allChars.toList) ∧
    allChars.toList.length = 88 ∧ len allChars = 88 :=
  ⟨rfl, C13_generated_variety sampleSource 3 "hO3#FMT0" rfl⟩

/-- C14 instance: requested length 12 gives 12 bytes; requested length -5 is
raised to 8 bytes. -/
theorem C14_generated_length_witness :
    (GenerateSecurePassword sampleSource 12 = .ok "%M%j|Q17F+T0" ∧
      len "%M%j|Q17F+T0" = min 128 (max 8 12) ∧ IsPasswordValid "%M%j|Q17F+T0" = true) ∧
    (GenerateSecurePassword sampleSource (-5) = .ok "hO3#FMT0" ∧
      len "hO3#FMT0" = min 128 (max 8 (-5)) ∧ IsPasswordValid "hO3#FMT0" = true) :=
  ⟨⟨rfl, C14_generated_length sampleSource 12 "%M%j|Q17F+T0" rfl⟩,
    ⟨rfl, C14_generated_length sampleSource (-5) "hO3#FMT0" rfl⟩⟩

/-! ## Leaderboard ranking -/

/-- A completed row has a strictly smaller sort key than a row that has not
reached its target. -/
theorem sortKey_lt_of_completed (a b : GroupGoalProgress)
    (ha : a.CurrentAmount ≥ a.TargetAmount) (hb : b.CurrentAmount < b.TargetAmount) :
    ¬ rankOrder b a := by
  unfold rankOrder sortKey
  rw [Prod.Lex.le_iff]
  have hca : rowCompleted a = true := by simp [rowCompleted, ha]
  have hcb : rowCompleted b = false := by simp [rowCompleted, hb]
  simp [hca, hcb]

/-- The rows in ranking order are sorted by `rankOrder`. -/
theorem sortRows_sorted (rows : List GroupGoalProgress) :
    (sortRows rows).Pairwise rankOrder := by
  haveI : IsTotal GroupGoalProgress rankOrder := ⟨fun a b => le_total (sortKey a) (sortKey b)⟩
  haveI : IsTrans GroupGoalProgress rankOrder :=
    ⟨fun a b c hab hbc => le_trans (α := Lex (Bool × Lex (ℚ × Lex (ℚ × Nat)))) hab hbc⟩
  exact List.sorted_insertionSort rankOrder rows

/-- Ranking rows that are already in ranking order leaves their order unchanged. -/
theorem sortRows_idem (rows : List GroupGoalProgress) :
    sortRows (sortRows rows) = sortRows rows :=
  List.Sorted.insertionSort_eq (sortRows_sorted rows)

/-- C17: in the leaderboard every member with `currentAmount >= targetAmount`
(equality included) is placed before every member who has not reached the
target; each entry is flagged completed exactly when its amounts say so; the
entries are those of the given rows; and ranking an already ranked snapshot
gives the identical output. -/
theorem C17_rank_completed_first (points : Int → Int) (profile : UUID → UserProfile)
    (rows : List GroupGoalProgress) :
    (∀ (i j : Nat) (a b : LeaderboardEntry),
      (rank points profile rows)[i]? = some a → (rank points profile rows)[j]? = some b →
      a.CurrentAmount ≥ a.TargetAmount → b.CurrentAmount < b.TargetAmount → i < j) ∧
    (∀ e ∈ rank points profile rows,
      (e.IsCompleted = true ↔ e.CurrentAmount ≥ e.TargetAmount)) ∧
    ((rank points profile rows).map (fun e => e.UserID)).Perm (rows.map (fun r => r.UserID)) ∧
    rank points profile (sortRows rows) = rank points profile rows := by
  refine ⟨?_, ?_, ?_, ?_⟩
  · intro i j a b hi hj ha hb
    simp only [rank, List.getElem?_map, Option.map_eq_some'] at hi hj
    obtain ⟨ra, hra, rfl⟩ := hi
    obtain ⟨rb, hrb, rfl⟩ := hj
    simp only at ha hb
    have hnot := sortKey_lt_of_completed ra rb ha hb
    obtain ⟨hil, hia⟩ := List.getElem?_eq_some.mp hra
    obtain ⟨hjl, hjb⟩ := List.getElem?_eq_some.mp hrb
    by_contra hij
    rcases Nat.lt_or_eq_of_le (not_lt.mp hij) with hlt | heq
    · have := List.pairwise_iff_getElem.mp (sortRows_sorted rows) j i hjl hil hlt
      rw [hia, hjb] at this
      exact hnot this
    · subst heq
      rw [hia] at hjb
      subst hjb
      linarith
  · intro e he
    simp only [rank, List.mem_map] at he
    obtain ⟨r, _, rfl⟩ := he
    simp [rowCompleted]
  · have hp : (sortRows rows).Perm rows := List.perm_insertionSort rankOrder rows
    have hm : (rank points profile rows).map (fun e => e.UserID)
        = (sortRows rows).map (fun r => r.UserID) := by
      simp [rank, List.map_map, Function.comp_def]
    rw [hm]
    exact hp.map _
  · simp only [rank, sortRows_idem]

/-- C17 instance (scenario E): a member exactly at the target (10 of 10) is
ranked before a member at 99 of 100, although the rows come in the other order. -/
theorem C17_rank_witness :
    (rank samplePoints sampleProfile scenarioERows)[0]? = some scenarioEFirst ∧
    (rank samplePoints sampleProfile scenarioERows)[1]? = some scenarioESecond ∧
    scenarioEFirst.CurrentAmount ≥ scenarioEFirst.TargetAmount ∧
    scenarioESecond.CurrentAmount < scenarioESecond.TargetAmount ∧
    0 < 1 :=
  ⟨by decide!, by decide!, by decide, by decide,
    (C17_rank_completed_first samplePoints sampleProfile scenarioERows).1 0 1
      scenarioEFirst scenarioESecond (by decide!) (by decide!) (by decide) (by decide)⟩

/-! ## Period transitions -/

/-- When all earlier periods are finalized and the latest one is active, the
active period is the latest one. -/
theorem activePeriod_concat (earlier : List GroupGoalPeriod) (latest : GroupGoalPeriod)
    (hl : latest.IsActive = true) (he : ∀ p ∈ earlier, p.IsActive = false) :
    activePeriod (earlier ++ [latest]) = some latest := by
  unfold activePeriod
  have hnone : earlier.find? (fun p => p.IsActive) = none := by
    rw [List.find?_eq_none]
    intro x hx
    simp [he x hx]
  rw [List.find?_append, hnone]
  simp [List.find?, hl]

/-- When all earlier periods are finalized and the latest one is active,
finalizing the active period finalizes the latest one. -/
theorem finalizeActive_concat (latest : GroupGoalPeriod) (hl : latest.IsActive = true) :
    ∀ (earlier : List GroupGoalPeriod), (∀ p ∈ earlier, p.IsActive = false) →
      finalizeActive (earlier ++ [latest]) = earlier ++ [finalize latest]
  | [], _ => by simp [finalizeActive, hl]
  | p :: rest, he => by
    have hp : p.IsActive = false := he p (List.mem_cons_self _ _)
    have ih := finalizeActive_concat latest hl rest
      (fun q hq => he q (List.mem_cons_of_mem _ hq))
    simp [finalizeActive, hp, ih]

/-- A transition keeps the periods of a goal well formed. -/
theorem transition_periodsOK (boundsFor : BoundsFor) (now : Time) (st : GoalStore)
    (h : PeriodsOK st.periods) : PeriodsOK (transition boundsFor now st).periods := by
  obtain ⟨hchain, hshape⟩ := h
  rcases hshape with hnil | ⟨earlier, latest, hper, hl, he⟩
  · have hp : (transition boundsFor now st).periods
        = [NewGroupGoalPeriod st.nextID now st.goal.ID (boundsFor st.goal.PeriodType now).1
            (boundsFor st.goal.PeriodType now).2] := by
      simp [transition, hnil, activePeriod, finalizeActive]
    rw [hp]
    refine ⟨List.chain'_singleton _, Or.inr ⟨[], _, rfl, rfl, ?_⟩⟩
    intro p hp2
    cases hp2
  · have hact := activePeriod_concat earlier latest hl he
    have hfin := finalizeActive_concat latest hl earlier he
    have hp : (transition boundsFor now st).periods
        = (earlier ++ [finalize latest]) ++
          [NewGroupGoalPeriod st.nextID now st.goal.ID latest.EndDate
            (boundsFor st.goal.PeriodType latest.EndDate).2] := by
      simp [transition, hper, hact, hfin]
    rw [hp]
    rw [hper, List.chain'_append] at hchain
    obtain ⟨hc1, _, hc3⟩ := hchain
    refine ⟨?_, Or.inr ⟨earlier ++ [finalize latest], _, rfl, rfl, ?_⟩⟩
    · rw [List.chain'_append]
      refine ⟨?_, List.chain'_singleton _, ?_⟩
      · rw [List.chain'_append]
        refine ⟨hc1, List.chain'_singleton _, ?_⟩
        intro x hx y hy
        simp only [List.head?_cons, Option.mem_def, Option.some.injEq] at hy
        subst hy
        exact hc3 x hx latest (by simp)
      · intro x hx y hy
        simp only [List.getLast?_concat, Option.mem_def, Option.some.injEq] at hx
        simp only [List.head?_cons, Option.mem_def, Option.some.injEq] at hy
        subst hx
        subst hy
        rfl
    · intro p hp2
      rcases List.mem_append.mp hp2 with h1 | h1
      · exact he p h1
      · simp only [List.mem_singleton] at h1
        subst h1
        rfl

/-- The sweep of one goal keeps its periods well formed, whatever the number of
transitions it makes. -/
theorem sweepGoal_periodsOK (boundsFor : BoundsFor) (now : Time) :
    ∀ (fuel : Nat) (st : GoalStore), PeriodsOK st.periods →
      PeriodsOK (sweepGoal boundsFor now fuel st).periods
  | 0, st, h => h
  | fuel + 1, st, h => by
    unfold sweepGoal
    split_ifs
    · exact sweepGoal_periodsOK boundsFor now fuel _ (transition_periodsOK boundsFor now st h)
    · exact h

/-- Successive runs of the sweep keep the periods of every goal well formed. -/
theorem runSweeps_periodsOK (boundsFor : BoundsFor) :
    ∀ (ticks : List Time) (stores : List GoalStore),
      (∀ st ∈ stores, PeriodsOK st.periods) →
      ∀ st ∈ runSweeps boundsFor ticks stores, PeriodsOK st.periods
  | [], stores, h => h
  | now :: rest, stores, h => by
    have hstep : ∀ st ∈ ProcessPeriodTransitions boundsFor now stores, PeriodsOK st.periods := by
      intro st hst
      simp only [ProcessPeriodTransitions, List.mem_map] at hst
      obtain ⟨s0, hs0, rfl⟩ := hst
      exact sweepGoal_periodsOK boundsFor now _ s0 (h s0 hs0)
    exact runSweeps_periodsOK boundsFor rest _ hstep

/-- Well-formed periods have at most one active period. -/
theorem periodsOK_active_le_one (periods : List GroupGoalPeriod) (h : PeriodsOK periods) :
    (periods.filter (fun p => p.IsActive)).length ≤ 1 := by
  rcases h.2 with hnil | ⟨earlier, latest, hper, _, he⟩
  · simp [hnil]
  · have hnone : earlier.filter (fun p => p.IsActive) = [] := by
      rw [List.filter_eq_nil_iff]
      intro x hx
      simp [he x hx]
    rw [hper, List.filter_append, hnone]
    simp only [List.nil_append]
    exact List.length_filter_le _ _

/-- C18: starting from goals whose periods are well formed (in particular from
goals without any period), after any sequence of runs of the sweep, at arbitrary
instants, any two consecutive periods `P`, `P'` of a goal satisfy
`P'.start == P.end`, and at most one period of the goal is active. -/
theorem C18_sweep_contiguous_one_active (boundsFor : BoundsFor) (ticks : List Time)
    (stores : List GoalStore) (h : ∀ st ∈ stores, PeriodsOK st.periods) :
    ∀ st ∈ runSweeps boundsFor ticks stores,
      st.periods.Chain' (fun P Q => Q.StartDate = P.EndDate) ∧
      (st.periods.filter (fun p => p.IsActive)).length ≤ 1 := by
  intro st hst
  have hok := runSweeps_periodsOK boundsFor ticks stores h st hst
  exact ⟨hok.1, periodsOK_active_le_one st.periods hok⟩

/-- After a transition the active period is the newly created one; it ends at
the end of the boundaries anchored at the finalized period's end, or, when there
was no period, at the end of the current boundaries. -/
theorem transition_active (boundsFor : BoundsFor) (now : Time) (st : GoalStore)
    (h : PeriodsOK st.periods) :
    ∃ q, activePeriod (transition boundsFor now st).periods = some q ∧
      q.EndDate = (match activePeriod st.periods with
        | some p => (boundsFor st.goal.PeriodType p.EndDate).2
        | none => (boundsFor st.goal.PeriodType now).2) := by
  rcases h.2 with hnil | ⟨earlier, latest, hper, hl, he⟩
  · refine ⟨NewGroupGoalPeriod st.nextID now st.goal.ID (boundsFor st.goal.PeriodType now).1
      (boundsFor st.goal.PeriodType now).2, ?_, ?_⟩
    · simp [transition, hnil, activePeriod, finalizeActive, NewGroupGoalPeriod]
    · simp [hnil, activePeriod, NewGroupGoalPeriod]
  · have hact := activePeriod_concat earlier latest hl he
    have hfin := finalizeActive_concat latest hl earlier he
    refine ⟨NewGroupGoalPeriod st.nextID now st.goal.ID latest.EndDate
      (boundsFor st.goal.PeriodType latest.EndDate).2, ?_, ?_⟩
    · have hp : (transition boundsFor now st).periods
          = (earlier ++ [finalize latest]) ++
            [NewGroupGoalPeriod st.nextID now st.goal.ID latest.EndDate
              (boundsFor st.goal.PeriodType latest.EndDate).2] := by
        simp [transition, hper, hact, hfin]
      rw [hp]
      apply activePeriod_concat _ _ rfl
      intro p hp2
      rcases List.mem_append.mp hp2 with h1 | h1
      · exact he p h1
      · simp only [List.mem_singleton] at h1
        subst h1
        rfl
    · rw [hper, hact]
      rfl

/-- With a period calculator whose intervals end after their reference instant,
a sweep with enough fuel catches up: afterwards the goal needs no transition. -/
theorem sweepGoal_caught_up (boundsFor : BoundsFor) (now : Time)
    (hb : ∀ ty t, t < (boundsFor ty t).2) :
    ∀ (fuel : Nat) (st : GoalStore), PeriodsOK st.periods → st.goal.IsActive = true →
      (match activePeriod st.periods with
        | some p => now < p.EndDate ∨ (now - p.EndDate).toNat + 1 ≤ fuel
        | none => 1 ≤ fuel) →
      needsTransition now (sweepGoal boundsFor now fuel st) = false
  | 0, st, _, _, hfuel => by
    unfold sweepGoal needsTransition
    cases hact : activePeriod st.periods with
    | none => rw [hact] at hfuel; simp at hfuel
    | some p =>
      rw [hact] at hfuel
      simp only at hfuel
      rcases hfuel with hlt | hle
      · simpa using hlt
      · omega
  | fuel + 1, st, hok, hgoal, hfuel => by
    unfold sweepGoal
    by_cases hneed : needsTransition now st = true
    · simp only [hgoal, hneed, Bool.and_self, if_true]
      obtain ⟨q, hq, hqe⟩ := transition_active boundsFor now st hok
      apply sweepGoal_caught_up boundsFor now hb fuel _
        (transition_periodsOK boundsFor now st hok) (by simpa [transition] using hgoal)
      rw [hq]
      simp only
      cases hact : activePeriod st.periods with
      | none =>
        rw [hact] at hqe
        simp only at hqe
        left
        rw [hqe]
        exact hb _ _
      | some p =>
        rw [hact] at hqe hfuel
        simp only at hqe hfuel
        have hpe : @LE.le Int _ p.EndDate now := by
          simpa [needsTransition, hact] using hneed
        have hgt : @LT.lt Int _ p.EndDate q.EndDate := by
          rw [hqe]
          exact hb _ _
        rcases hfuel with hlt | hle
        · have hlt2 : @LT.lt Int _ now p.EndDate := hlt
          omega
        · by_cases hq2 : @LT.lt Int _ now q.EndDate
          · exact Or.inl hq2
          · right
            omega
    · have hn : needsTransition now st = false := by simpa using hneed
      simp only [hn, Bool.and_false, Bool.false_eq_true, if_false]

/-- The fuel used by `ProcessPeriodTransitions` is enough: for an active goal
with well-formed periods, after the run the active period ends after `now`. -/
theorem processPeriodTransitions_caught_up (boundsFor : BoundsFor) (now : Time)
    (hb : ∀ ty t, t < (boundsFor ty t).2) (st : GoalStore) (hok : PeriodsOK st.periods)
    (hgoal : st.goal.IsActive = true) :
    needsTransition now (sweepGoal boundsFor now (sweepFuel now st) st) = false := by
  apply sweepGoal_caught_up boundsFor now hb _ st hok hgoal
  unfold sweepFuel
  cases hact : activePeriod st.periods with
  | none => simp
  | some p =>
    simp only
    right
    omega

/-- The store before any sweep has well-formed periods. -/
theorem sampleStore_periodsOK : ∀ st ∈ [sampleStore], PeriodsOK st.periods := by
  intro st hst
  simp only [List.mem_singleton] at hst
  subst hst
  exact ⟨List.chain'_nil, Or.inl rfl⟩

/-- C18 instance (scenario C): a first sweep in week 10 opens a period; the next
sweep comes three weeks later and leaves three finalized periods and one active
period, all contiguous. -/
theorem C18_sweep_witness :
    (∀ st ∈ [sampleStore], PeriodsOK st.periods) ∧
    (runSweeps weeklyBounds [10 * week, 13 * week + 7] [sampleStore]).map
        (fun st => st.periods.map (fun p => (p.StartDate / week, p.EndDate / week, p.IsActive)))
      = [[(9, 10, false), (10, 11, false), (11, 12, false), (12, 13, true)]] ∧
    (∀ st ∈ runSweeps weeklyBounds [10 * week, 13 * week + 7] [sampleStore],
      st.periods.Chain' (fun P Q => Q.StartDate = P.EndDate) ∧
      (st.periods.filter (fun p => p.IsActive)).length ≤ 1) :=
  ⟨sampleStore_periodsOK, by decide!,
    C18_sweep_contiguous_one_active weeklyBounds [10 * week, 13 * week + 7] [sampleStore]
      sampleStore_periodsOK⟩

/-! ## Float64 rounding -/

theorem log2Fuel_spec : ∀ (fuel n : Nat), n ≤ fuel → 0 < n →
    2 ^ log2Fuel fuel n ≤ n ∧ n < 2 ^ (log2Fuel fuel n + 1)
  | 0, n, h1, h2 => by omega
  | fuel + 1, n, h1, h2 => by
    unfold log2Fuel
    by_cases hn : n < 2
    · rw [if_pos hn]
      simp only [pow_zero, zero_add, pow_one]
      omega
    · rw [if_neg hn]
      obtain ⟨ih1, ih2⟩ := log2Fuel_spec fuel (n / 2) (by omega) (by omega)
      rw [pow_succ, pow_succ]
      rw [pow_succ] at ih2
      constructor <;> omega

theorem floorLog2_spec (x : ℚ) (hx : 0 < x) :
    (2 : ℚ) ^ floorLog2 x ≤ x ∧ x < (2 : ℚ) ^ (floorLog2 x + 1) := by
  have hnum : 0 < x.num := Rat.num_pos.mpr hx
  have hn0 : 0 < x.num.natAbs := Int.natAbs_pos.mpr (ne_of_gt hnum)
  have hd0 : 0 < x.den := x.den_pos
  obtain ⟨hn1, hn2⟩ := log2Fuel_spec x.num.natAbs x.num.natAbs le_rfl hn0
  obtain ⟨hd1, hd2⟩ := log2Fuel_spec x.den x.den le_rfl hd0
  set ln := log2Fuel x.num.natAbs x.num.natAbs with hln
  set ld := log2Fuel x.den x.den with hld
  have hxq : x = (x.num.natAbs : ℚ) / (x.den : ℚ) := by
    have h1 : ((x.num.natAbs : ℤ) : ℚ) = (x.num : ℚ) := by
      rw [Int.natAbs_of_nonneg (le_of_lt hnum)]
    have h2 : ((x.num.natAbs : ℕ) : ℚ) = ((x.num.natAbs : ℤ) : ℚ) :=
      (Int.cast_natCast _).symm
    rw [h2, h1]
    exact (Rat.num_div_den x).symm
  have hnq1 : (2 : ℚ) ^ ln ≤ (x.num.natAbs : ℚ) := by exact_mod_cast hn1
  have hnq2 : (x.num.natAbs : ℚ) < (2 : ℚ) ^ (ln + 1) := by exact_mod_cast hn2
  have hdq1 : (2 : ℚ) ^ ld ≤ (x.den : ℚ) := by exact_mod_cast hd1
  have hdq2 : (x.den : ℚ) < (2 : ℚ) ^ (ld + 1) := by exact_mod_cast hd2
  have hdpos : (0 : ℚ) < (x.den : ℚ) := by exact_mod_cast hd0
  have h2ne : (2 : ℚ) ≠ 0 := by norm_num
  have hpld : (0 : ℚ) < (2 : ℚ) ^ ld := by positivity
  unfold floorLog2
  simp only [← hln, ← hld]
  by_cases hc : (2 : ℚ) ^ ((ln : ℤ) - (ld : ℤ)) ≤ x
  · rw [if_pos hc]
    refine ⟨hc, ?_⟩
    have : (2 : ℚ) ^ ((ln : ℤ) - (ld : ℤ) + 1) = (2 : ℚ) ^ (ln + 1) / (2 : ℚ) ^ ld := by
      rw [show (ln : ℤ) - (ld : ℤ) + 1 = ((ln + 1 : ℕ) : ℤ) - (ld : ℤ) by push_cast; ring,
        zpow_sub₀ h2ne, zpow_natCast, zpow_natCast]
    rw [this, hxq, div_lt_div_iff₀ hdpos hpld]
    calc (x.num.natAbs : ℚ) * (2 : ℚ) ^ ld ≤ (x.num.natAbs : ℚ) * (x.den : ℚ) := by
          apply mul_le_mul_of_nonneg_left hdq1
          positivity
      _ < (2 : ℚ) ^ (ln + 1) * (x.den : ℚ) := by
          apply mul_lt_mul_of_pos_right hnq2 hdpos
  · rw [if_neg hc]
    refine ⟨?_, ?_⟩
    · have : (2 : ℚ) ^ ((ln : ℤ) - (ld : ℤ) - 1) = (2 : ℚ) ^ ln / (2 : ℚ) ^ (ld + 1) := by
        rw [show (ln : ℤ) - (ld : ℤ) - 1 = (ln : ℤ) - ((ld + 1 : ℕ) : ℤ) by push_cast; ring,
          zpow_sub₀ h2ne, zpow_natCast, zpow_natCast]
      rw [this, hxq, div_le_div_iff₀ (by positivity) hdpos]
      calc (2 : ℚ) ^ ln * (x.den : ℚ) ≤ (x.num.natAbs : ℚ) * (x.den : ℚ) := by
            apply mul_le_mul_of_nonneg_right hnq1 (le_of_lt hdpos)
        _ ≤ (x.num.natAbs : ℚ) * (2 : ℚ) ^ (ld + 1) := by
            apply mul_le_mul_of_nonneg_left (le_of_lt hdq2)
            positivity
    · rw [sub_add_cancel]
      exact not_le.mp hc

theorem roundHalfEven_intCast (n : ℤ) : roundHalfEven (n : ℚ) = n := by
  unfold roundHalfEven
  simp

theorem roundHalfEven_bounds (q : ℚ) : ⌊q⌋ ≤ roundHalfEven q ∧ roundHalfEven q ≤ ⌊q⌋ + 1 := by
  unfold roundHalfEven
  simp only
  split_ifs <;> constructor <;> omega

/-- A value `m * 2 ^ e` with `|m| < 2 ^ 53` and `e >= -1074` is left unchanged by
the rounding. -/
theorem roundF64_of_repr (m e0 : ℤ) (hm : |m| < 2 ^ 53) (he : -1074 ≤ e0) :
    roundF64 ((m : ℚ) * (2 : ℚ) ^ e0) = (m : ℚ) * (2 : ℚ) ^ e0 := by
  have h2 : (1 : ℚ) < 2 := by norm_num
  have h2ne : (2 : ℚ) ≠ 0 := by norm_num
  unfold roundF64
  by_cases hx : (m : ℚ) * (2 : ℚ) ^ e0 = 0
  · rw [if_pos hx, hx]
  · rw [if_neg hx]
    simp only
    have hxpos : 0 < |(m : ℚ) * (2 : ℚ) ^ e0| := abs_pos.mpr hx
    obtain ⟨hL1, _⟩ := floorLog2_spec _ hxpos
    set L := floorLog2 |(m : ℚ) * (2 : ℚ) ^ e0| with hLdef
    have hp0 : (0 : ℚ) < (2 : ℚ) ^ e0 := by positivity
    have habs : |(m : ℚ) * (2 : ℚ) ^ e0| = |(m : ℚ)| * (2 : ℚ) ^ e0 := by
      rw [abs_mul, abs_of_pos hp0]
    have hmq : |(m : ℚ)| < (2 : ℚ) ^ (53 : ℤ) := by
      have : ((|m| : ℤ) : ℚ) < (((2 : ℤ) ^ 53 : ℤ) : ℚ) := by exact_mod_cast hm
      rw [Int.cast_abs] at this
      calc |(m : ℚ)| < (((2 : ℤ) ^ 53 : ℤ) : ℚ) := this
        _ = (2 : ℚ) ^ (53 : ℤ) := by norm_num
    have hlt : (2 : ℚ) ^ L < (2 : ℚ) ^ (53 + e0) := by
      calc (2 : ℚ) ^ L ≤ |(m : ℚ)| * (2 : ℚ) ^ e0 := by rw [← habs]; exact hL1
        _ < (2 : ℚ) ^ (53 : ℤ) * (2 : ℚ) ^ e0 := mul_lt_mul_of_pos_right hmq hp0
        _ = (2 : ℚ) ^ (53 + e0) := by rw [zpow_add₀ h2ne]
    have hL : L < 53 + e0 := (zpow_lt_zpow_iff_right₀ h2).mp hlt
    have hle : max (L - 52) (-1074) ≤ e0 := max_le (by omega) he
    set e := max (L - 52) (-1074) with hedef
    obtain ⟨k, hk⟩ : ∃ k : ℕ, e0 = e + (k : ℤ) := ⟨(e0 - e).toNat, by omega⟩
    have hq : (m : ℚ) * (2 : ℚ) ^ e0 / (2 : ℚ) ^ e = ((m * 2 ^ k : ℤ) : ℚ) := by
      rw [hk, zpow_add₀ h2ne, zpow_natCast]
      have hpe : (2 : ℚ) ^ e ≠ 0 := by positivity
      field_simp
      ring
    rw [hq, roundHalfEven_intCast]
    rw [hk, zpow_add₀ h2ne, zpow_natCast]
    push_cast
    ring

/-- The rounding always yields a value `m * 2 ^ e` with `|m| < 2 ^ 53` and
`e >= -1074`. -/
theorem roundF64_repr (x : ℚ) :
    ∃ m e0 : ℤ, |m| < 2 ^ 53 ∧ -1074 ≤ e0 ∧ roundF64 x = (m : ℚ) * (2 : ℚ) ^ e0 := by
  have h2 : (1 : ℚ) ≤ 2 := by norm_num
  have h2ne : (2 : ℚ) ≠ 0 := by norm_num
  by_cases hx : x = 0
  · exact ⟨0, 0, by norm_num, by norm_num, by simp [roundF64, hx]⟩
  · have hxpos : 0 < |x| := abs_pos.mpr hx
    obtain ⟨_, hL2⟩ := floorLog2_spec _ hxpos
    set L := floorLog2 |x| with hLdef
    set e := max (L - 52) (-1074) with hedef
    have he1 : L - 52 ≤ e := le_max_left _ _
    have he2 : -1074 ≤ e := le_max_right _ _
    have hpe : (0 : ℚ) < (2 : ℚ) ^ e := by positivity
    have hr : roundF64 x = (roundHalfEven (x / (2 : ℚ) ^ e) : ℚ) * (2 : ℚ) ^ e := by
      unfold roundF64
      rw [if_neg hx]
    have hqabs : |x / (2 : ℚ) ^ e| < (2 : ℚ) ^ (53 : ℤ) := by
      rw [abs_div, abs_of_pos hpe, div_lt_iff₀ hpe]
      calc |x| < (2 : ℚ) ^ (L + 1) := hL2
        _ ≤ (2 : ℚ) ^ (53 + e) := zpow_le_zpow_right₀ h2 (by omega)
        _ = (2 : ℚ) ^ (53 : ℤ) * (2 : ℚ) ^ e := by rw [zpow_add₀ h2ne]
    obtain ⟨hb1, hb2⟩ := roundHalfEven_bounds (x / (2 : ℚ) ^ e)
    set q := x / (2 : ℚ) ^ e with hqdef
    set m := roundHalfEven q with hmdef
    have h53 : (2 : ℚ) ^ (53 : ℤ) = ((9007199254740992 : ℤ) : ℚ) := by norm_num
    rw [h53] at hqabs
    have hq1 : q < ((9007199254740992 : ℤ) : ℚ) := lt_of_le_of_lt (le_abs_self q) hqabs
    have hq2 : ((-9007199254740992 : ℤ) : ℚ) < q := by
      have := neg_lt_of_abs_lt hqabs
      push_cast at this ⊢
      linarith
    have hf1 : ⌊q⌋ < 9007199254740992 := Int.floor_lt.mpr hq1
    have hf2 : -9007199254740992 ≤ ⌊q⌋ := Int.le_floor.mpr (le_of_lt hq2)
    have hm1 : m ≤ 9007199254740992 := by omega
    have hm2 : -9007199254740992 ≤ m := by omega
    by_cases hmax : m = 9007199254740992
    · refine ⟨4503599627370496, e + 1, by norm_num, by omega, ?_⟩
      rw [hr, hmax, zpow_add₀ h2ne]
      norm_num
      ring
    · by_cases hmin : m = -9007199254740992
      · refine ⟨-4503599627370496, e + 1, by norm_num, by omega, ?_⟩
        rw [hr, hmin, zpow_add₀ h2ne]
        norm_num
        ring
      · refine ⟨m, e, ?_, he2, hr⟩
        rw [abs_lt]
        constructor <;> norm_num <;> omega

/-- Rounding a rounded value changes nothing. -/
theorem roundF64_idem (x : ℚ) : roundF64 (roundF64 x) = roundF64 x := by
  obtain ⟨m, e0, hm, he, hx⟩ := roundF64_repr x
  rw [hx]
  exact roundF64_of_repr m e0 hm he

/-- Rounding a non-negative value gives a non-negative value. -/
theorem roundF64_nonneg (x : ℚ) (hx : 0 ≤ x) : 0 ≤ roundF64 x := by
  unfold roundF64
  by_cases h0 : x = 0
  · rw [if_pos h0]
  · rw [if_neg h0]
    simp only
    have hpe : (0 : ℚ) < (2 : ℚ) ^ (max (floorLog2 |x| - 52) (-1074)) := by positivity
    have hq : 0 ≤ x / (2 : ℚ) ^ (max (floorLog2 |x| - 52) (-1074)) := div_nonneg hx (le_of_lt hpe)
    have hf : 0 ≤ ⌊x / (2 : ℚ) ^ (max (floorLog2 |x| - 52) (-1074))⌋ := Int.floor_nonneg.mpr hq
    have hm := (roundHalfEven_bounds (x / (2 : ℚ) ^ (max (floorLog2 |x| - 52) (-1074)))).1
    have : (0 : ℚ) ≤ (roundHalfEven (x / (2 : ℚ) ^ (max (floorLog2 |x| - 52) (-1074))) : ℚ) := by
      exact_mod_cast le_trans hf hm
    exact mul_nonneg this (le_of_lt hpe)

/-- In float64 arithmetic, a row with nothing achieved whose target is a
non-negative float64 value carries its whole target over. -/
theorem carryOverF64_of_zero_current (gp : GroupGoalProgress) (hC : gp.CurrentAmount = 0)
    (hT : 0 ≤ gp.TargetAmount) (hF : roundF64 gp.TargetAmount = gp.TargetAmount) :
    gp.CalculatePenaltyCarryOverF64 = gp.TargetAmount := by
  unfold GroupGoalProgress.CalculatePenaltyCarryOverF64
  simp only [hC, sub_zero, hF]
  split_ifs with h
  · linarith
  · rfl

/-- In float64 arithmetic every row of `missedRowsF64` has current amount 0 and
a target that is a non-negative float64 value. -/
theorem missedRowsF64_inv (newID period : Nat → UUID) (now : Nat → Time) (b : ℚ)
    (start : GroupGoalProgress) (hb : 0 ≤ b) (hT : 0 ≤ start.TargetAmount)
    (hC : start.CurrentAmount = 0) (hF : roundF64 start.TargetAmount = start.TargetAmount) :
    ∀ k : Nat,
      (missedRowsF64 newID period now b start k).CurrentAmount = 0 ∧
      0 ≤ (missedRowsF64 newID period now b start k).TargetAmount ∧
      roundF64 (missedRowsF64 newID period now b start k).TargetAmount
        = (missedRowsF64 newID period now b start k).TargetAmount
  | 0 => ⟨hC, hT, hF⟩
  | k + 1 => by
    obtain ⟨ihC, ihT, ihF⟩ := missedRowsF64_inv newID period now b start hb hT hC hF k
    have hc := carryOverF64_of_zero_current _ ihC ihT ihF
    simp only [missedRowsF64, NewGroupGoalProgressF64, hc]
    exact ⟨trivial, roundF64_nonneg _ (add_nonneg hb ihT), roundF64_idem _⟩

/-- In float64 arithmetic each later row of `missedRowsF64` carries the whole
target of the previous row, and its target is the rounded sum of the base target
and that penalty. -/
theorem missedRowsF64_succ (newID period : Nat → UUID) (now : Nat → Time) (b : ℚ)
    (start : GroupGoalProgress) (hb : 0 ≤ b) (hT : 0 ≤ start.TargetAmount)
    (hC : start.CurrentAmount = 0) (hF : roundF64 start.TargetAmount = start.TargetAmount)
    (k : Nat) :
    (missedRowsF64 newID period now b start (k + 1)).PenaltyCarryOver
      = (missedRowsF64 newID period now b start k).TargetAmount ∧
    (missedRowsF64 newID period now b start (k + 1)).TargetAmount
      = roundF64 (b + (missedRowsF64 newID period now b start k).TargetAmount) := by
  obtain ⟨ihC, ihT, ihF⟩ := missedRowsF64_inv newID period now b start hb hT hC hF k
  have hc := carryOverF64_of_zero_current _ ihC ihT ihF
  simp only [missedRowsF64, NewGroupGoalProgressF64, hc]
  exact ⟨trivial, trivial⟩

/-! ## Penalty over successive missed periods, exact and float64 -/

/-- C19 (as stated) fails on the float64 amounts of the code: with starting
target 2.5, base target 0.7 (the nearest float64) and nothing logged, the second
successive row has penalty 3.2000000000000002 and target 3.9000000000000004,
which are neither `T + (k-1)*b` and `T + k*b` as exact numbers nor that
formula evaluated in float64 (3.9). -/
theorem C19_float64_counterexample :
    (0 ≤ nearest07 ∧ 0 ≤ (rowWith (5 / 2) 0).TargetAmount ∧
      (rowWith (5 / 2) 0).CurrentAmount = 0 ∧ 1 ≤ 2 ∧
      roundF64 (7 / 10) = nearest07 ∧ roundF64 (5 / 2) = 5 / 2) ∧
    (missedRowsF64 (fun k => 100 + k) (fun k => 200 + k) (fun k => 7 * k) nearest07
        (rowWith (5 / 2) 0) 2).TargetAmount = 8782019273372468 / 2251799813685248 ∧
    ¬ ((missedRowsF64 (fun k => 100 + k) (fun k => 200 + k) (fun k => 7 * k) nearest07
          (rowWith (5 / 2) 0) 2).PenaltyCarryOver
        = (rowWith (5 / 2) 0).TargetAmount + ((2 : ℕ) - 1) * nearest07 ∧
      (missedRowsF64 (fun k => 100 + k) (fun k => 200 + k) (fun k => 7 * k) nearest07
          (rowWith (5 / 2) 0) 2).TargetAmount
        = (rowWith (5 / 2) 0).TargetAmount + (2 : ℕ) * nearest07) ∧
    (missedRowsF64 (fun k => 100 + k) (fun k => 200 + k) (fun k => 7 * k) nearest07
        (rowWith (5 / 2) 0) 2).TargetAmount
      ≠ roundF64 ((rowWith (5 / 2) 0).TargetAmount + roundF64 ((2 : ℕ) * nearest07)) := by
  decide!

/-- C19 (amended): for base target `b >= 0`, a starting row with target `T >= 0`
and current amount 0, and `k >= 1`, the `k`-th successive row built without any
progress has, with amounts treated as exact numbers, `PenaltyCarryOver =
T + (k-1)*b` and `TargetAmount = T + k*b`; in the float64 arithmetic of the
code (`T` a float64 value) its `PenaltyCarryOver` is the whole `TargetAmount` of
the previous row and its `TargetAmount` is the float64 sum of `b` and that
penalty. -/
theorem C19_missed_periods_carry (newID period : Nat → UUID) (now : Nat → Time) (b : ℚ)
    (start : GroupGoalProgress) (k : Nat) (hb : 0 ≤ b) (hT : 0 ≤ start.TargetAmount)
    (hC : start.CurrentAmount = 0) (hk : 1 ≤ k) :
    ((missedRows newID period now b start k).PenaltyCarryOver
        = start.TargetAmount + ((k : ℚ) - 1) * b ∧
      (missedRows newID period now b start k).TargetAmount
        = start.TargetAmount + (k : ℚ) * b) ∧
    (roundF64 start.TargetAmount = start.TargetAmount →
      (missedRowsF64 newID period now b start k).PenaltyCarryOver
        = (missedRowsF64 newID period now b start (k - 1)).TargetAmount ∧
      (missedRowsF64 newID period now b start k).TargetAmount
        = roundF64 (b + (missedRowsF64 newID period now b start k).PenaltyCarryOver)) := by
  obtain ⟨j, rfl⟩ : ∃ j, k = j + 1 := ⟨k - 1, by omega⟩
  obtain ⟨_, hP, hTg⟩ := missedRows_succ newID period now b start hb hT hC j
  refine ⟨⟨?_, ?_⟩, ?_⟩
  · rw [hP]
    push_cast
    ring
  · rw [hTg]
    push_cast
    ring
  · intro hF
    obtain ⟨h1, h2⟩ := missedRowsF64_succ newID period now b start hb hT hC hF j
    rw [Nat.add_sub_cancel]
    exact ⟨h1, by rw [h2, h1]⟩

/-- C19 instances: base target 10, starting target 10, nothing logged for three
periods (scenario C): the third row carries penalty 30 and has target 40, in
exact and in float64 arithmetic alike; base target 0.7 and starting target 2.5:
the second row carries the whole target of the first. -/
theorem C19_missed_periods_witness :
    (((0 : ℚ) ≤ 10 ∧ 0 ≤ (rowWith 10 0).TargetAmount ∧ (rowWith 10 0).CurrentAmount = 0 ∧
        1 ≤ 3 ∧ roundF64 (rowWith 10 0).TargetAmount = (rowWith 10 0).TargetAmount) ∧
      (missedRows (fun k => 100 + k) (fun k => 200 + k) (fun k => 7 * k) 10 (rowWith 10 0)
          3).PenaltyCarryOver = (rowWith 10 0).TargetAmount + ((3 : ℕ) - 1) * 10 ∧
      (missedRows (fun k => 100 + k) (fun k => 200 + k) (fun k => 7 * k) 10 (rowWith 10 0)
          3).TargetAmount = (rowWith 10 0).TargetAmount + (3 : ℕ) * 10 ∧
      (missedRowsF64 (fun k => 100 + k) (fun k => 200 + k) (fun k => 7 * k) 10 (rowWith 10 0)
          3).PenaltyCarryOver = 30 ∧
      (missedRowsF64 (fun k => 100 + k) (fun k => 200 + k) (fun k => 7 * k) 10 (rowWith 10 0)
          3).TargetAmount = 40) ∧
    ((0 ≤ nearest07 ∧ 0 ≤ (rowWith (5 / 2) 0).TargetAmount ∧
        (rowWith (5 / 2) 0).CurrentAmount = 0 ∧ 1 ≤ 2 ∧
        roundF64 (rowWith (5 / 2) 0).TargetAmount = (rowWith (5 / 2) 0).TargetAmount) ∧
      (missedRowsF64 (fun k => 100 + k) (fun k => 200 + k) (fun k => 7 * k) nearest07
          (rowWith (5 / 2) 0) 2).PenaltyCarryOver
        = (missedRowsF64 (fun k => 100 + k) (fun k => 200 + k) (fun k => 7 * k) nearest07
          (rowWith (5 / 2) 0) (2 - 1)).TargetAmount ∧
      (missedRowsF64 (fun k => 100 + k) (fun k => 200 + k) (fun k => 7 * k) nearest07
          (rowWith (5 / 2) 0) 2).TargetAmount
        = roundF64 (nearest07 + (missedRowsF64 (fun k => 100 + k) (fun k => 200 + k)
          (fun k => 7 * k) nearest07 (rowWith (5 / 2) 0) 2).PenaltyCarryOver)) :=
  ⟨⟨⟨by norm_num, by decide, rfl, by decide, by decide!⟩,
      (C19_missed_periods_carry (fun k => 100 + k) (fun k => 200 + k) (fun k => 7 * k) 10
        (rowWith 10 0) 3 (by norm_num) (by decide) rfl (by decide)).1.1,
      (C19_missed_periods_carry (fun k => 100 + k) (fun k => 200 + k) (fun k => 7 * k) 10
        (rowWith 10 0) 3 (by norm_num) (by decide) rfl (by decide)).1.2,
      by decide!, by decide!⟩,
    ⟨⟨by decide!, by decide!, rfl, by decide, by decide!⟩,
      (C19_missed_periods_carry (fun k => 100 + k) (fun k => 200 + k) (fun k => 7 * k)
        nearest07 (rowWith (5 / 2) 0) 2 (by decide!) (by decide!) rfl (by decide)).2
        (by decide!)⟩⟩

end Accountability
